import Mathlib

/-!
# The per-database collection catalog (`KVDatabaseCatalogEntryBase`)

A shallow embedding of `src/mongo/db/storage/kv/kv_database_catalog_entry_base.cpp`.

The class keeps an in-memory map `_collections` from namespace to
`KVCollectionCatalogEntry` and talks to two collaborators that live behind
`_engine`: the catalog (`_engine->getCatalog()`, the spec's CatalogStore) and the
key-value engine (`_engine->getEngine()`, the spec's StorageEngine).  Neither
collaborator is part of the translated file, so both are taken as a parameter
`KVStorageEngine W R`: `W` is the state the collaborators keep, `R` the type of an
opened record store.  Every member function becomes a function from the state
before the call to an `Outcome` and the state after the call.  The state carries a
list of the collaborator calls made so far, so that "the engine is not asked to
open a record store" is a statement about that list.
-/

namespace mongo

/-! ## Values the file exchanges with its collaborators -/

/-- Modelled from the spec: the error-code enumeration (`mongo/base/error_codes.h`
is not among the translated sources).  `OK`, `BadValue`, `NamespaceNotFound` and
`NamespaceExists` are the codes the source file names; `InvalidArgument`,
`NotFound` and `AlreadyExists` are the codes of the spec's error taxonomy;
`engineError` stands for the opaque failures of the collaborators. -/
inductive ErrorCodes where
  | OK
  | BadValue
  | NamespaceNotFound
  | NamespaceExists
  | InvalidArgument
  | NotFound
  | AlreadyExists
  | engineError (code : Nat)
  deriving DecidableEq

/-- The `Status` class: an error code and a reason string. -/
structure Status where
  code : ErrorCodes
  reason : String
  deriving DecidableEq

/-- The value of `Status::OK()`. -/
def Status.OK : Status := ⟨ErrorCodes.OK, ""⟩

/-- The test `Status::isOK()`: the code is `ErrorCodes::OK`. -/
def Status.isOK (s : Status) : Bool := decide (s.code = ErrorCodes.OK)

/-- A BSON element, as far as the file looks at one: its type and its value. -/
inductive BSONElement where
  | eoo
  | string (value : String)
  | object (fields : List (String × BSONElement))
  | bool (value : Bool)
  | numberLong (value : Int)

/-- A BSON document: its fields in order. -/
abbrev BSONObj := List (String × BSONElement)

/-- The test `BSONObj::isEmpty()`. -/
def BSONObj.isEmpty (obj : BSONObj) : Bool := List.isEmpty obj

/-- The lookup `obj[name]`: the first field of that name, the end-of-object element if
there is none. -/
def BSONObj.getField (obj : BSONObj) (name : String) : BSONElement :=
  match List.find? (fun f => decide (f.1 = name)) obj with
  | some f => f.2
  | none => BSONElement.eoo

/-- The test `BSONElement::isABSONObj()`. -/
def BSONElement.isABSONObj : BSONElement → Bool
  | BSONElement.object _ => true
  | _ => false

/-- The accessor `BSONElement::Obj()` of an element that is an object. -/
def BSONElement.Obj : BSONElement → BSONObj
  | BSONElement.object fields => fields
  | _ => []

/-- The accessor `BSONElement::checkAndGetStringData()`: the string of a string element;
`none` stands for the exception it throws on an element of another type. -/
def BSONElement.checkAndGetStringData : BSONElement → Option String
  | BSONElement.string value => some value
  | _ => none

/-- The class `NamespaceString`: the full name `db.collection`. -/
structure NamespaceString where
  ns : String
  deriving DecidableEq

/-- The test `NamespaceString::isEmpty()`. -/
def NamespaceString.isEmpty (nss : NamespaceString) : Bool := decide (nss.ns = "")

/-- The conversion `NamespaceString::toString()`. -/
def NamespaceString.toString (nss : NamespaceString) : String := nss.ns

/-- The conversion `NamespaceString::toStringData()`. -/
def NamespaceString.toStringData (nss : NamespaceString) : String := nss.ns

/-- The class `KVPrefix`: the key-space tag of a collection. -/
structure KVPrefix where
  value : Int
  deriving DecidableEq

/-- The class `CollectionOptions`; `collation` is the one member the file reads. -/
structure CollectionOptions where
  collation : BSONObj

/-- The struct `BSONCollectionCatalogEntry::MetaData`; the file reads its members
`options` and `prefix` (here `kvPrefix`). -/
structure MetaData where
  ns : String
  options : CollectionOptions
  kvPrefix : KVPrefix

/-- The enumeration `KVCatalog::FeatureTracker::NonRepairableFeature`. -/
inductive NonRepairableFeature where
  | kCollation
  | kNextFeatureBit
  deriving DecidableEq

/-- The lock modes of the lock manager. -/
inductive LockMode where
  | MODE_NONE
  | MODE_IS
  | MODE_IX
  | MODE_S
  | MODE_X
  deriving DecidableEq

/-- The part of `OperationContext` the file reads: `lockState()->isDbLockedForMode`. -/
structure OperationContext where
  isDbLockedForMode : String → LockMode → Bool

/-! ## The in-memory map -/

/-- The class `KVCollectionCatalogEntry` as the file constructs it: the constructor
arguments `ns`, `ident` and the owned record store. -/
structure KVCollectionCatalogEntry (R : Type) where
  ns : String
  ident : String
  rs : R

/-- The accessor `KVCollectionCatalogEntry::getRecordStore()`. -/
def KVCollectionCatalogEntry.getRecordStore {R : Type} (e : KVCollectionCatalogEntry R) : R :=
  e.rs

/-- The type `CollectionCatalogMap`: namespace to owned entry.  `find` returns the first
binding of a key, `try_emplace` adds a binding only for an absent key and `erase`
removes every binding of a key, so a list without a repeated key behaves as the
C++ map does. -/
abbrev CollectionCatalogMap (R : Type) := List (String × KVCollectionCatalogEntry R)

/-- The lookup `_collections.find(ns)`: `none` is `_collections.end()`. -/
def CollectionCatalogMap.find {R : Type} (m : CollectionCatalogMap R) (ns : String) :
    Option (KVCollectionCatalogEntry R) :=
  match m with
  | [] => none
  | (k, e) :: rest => if k = ns then some e else CollectionCatalogMap.find rest ns

/-- The call `_collections.try_emplace(ns, entry)`: no effect when `ns` is already a
key. -/
def CollectionCatalogMap.try_emplace {R : Type} (m : CollectionCatalogMap R) (ns : String)
    (e : KVCollectionCatalogEntry R) : CollectionCatalogMap R :=
  match CollectionCatalogMap.find m ns with
  | some _ => m
  | none => m ++ [(ns, e)]

/-- The call `_collections.erase(ns)`. -/
def CollectionCatalogMap.erase {R : Type} (m : CollectionCatalogMap R) (ns : String) :
    CollectionCatalogMap R :=
  List.filter (fun b => !decide (b.1 = ns)) m

/-! ## The collaborators -/

/-- The member functions of the catalog, of its feature tracker, of the key-value engine
and of a record store that the file calls.  None of them is defined in the
translated file, so each is a parameter; `W` is the collaborators' state and `R` an
opened record store.  A function that writes or allocates returns the state it
leaves; the lookups (`findEntry`, `getMetaData`, `getIndexIdent`,
`isNonRepairableFeatureInUse`, `getIdentSize`, `storageSize`, `getAllIndexes`) read
the state and leave it as it is.  The record store `getGroupedRecordStore` returns is
never null, which is what the `invariant(rs)` of the file states. -/
structure KVStorageEngine (W R : Type) where
  /-- The call `KVCatalog::newCollection(opCtx, nss, options, idIndexSpec)`. -/
  newCollection : W → NamespaceString → CollectionOptions → BSONObj → Status × W
  /-- The call `KVCatalog::findEntry(opCtx, ns)`. -/
  findEntry : W → String → BSONObj
  /-- The call `KVCatalog::dropCollection(opCtx, ns)`. -/
  dropCollection : W → String → Status × W
  /-- The call `KVCatalog::getMetaData(opCtx, ns)`. -/
  getMetaData : W → String → MetaData
  /-- The call `KVCatalog::getIndexIdent(opCtx, ns, indexName)`. -/
  getIndexIdent : W → String → String → String
  /-- The call `KVCatalog::FeatureTracker::isFeatureDocument(obj)`. -/
  isFeatureDocument : BSONObj → Bool
  /-- The call `KVCatalog::FeatureTracker::isNonRepairableFeatureInUse(opCtx, feature)`. -/
  isNonRepairableFeatureInUse : W → NonRepairableFeature → Bool
  /-- The call `KVCatalog::FeatureTracker::markNonRepairableFeatureAsInUse(opCtx, feature)`. -/
  markNonRepairableFeatureAsInUse : W → NonRepairableFeature → W
  /-- The call `BSONCollectionCatalogEntry::MetaData::parse(obj)`. -/
  parse : BSONObj → MetaData
  /-- The call `KVPrefix::getNextPrefix(nss)`. -/
  getNextPrefix : W → NamespaceString → KVPrefix × W
  /-- The call `KVEngine::getGroupedRecordStore(opCtx, ns, ident, options, prefix)`. -/
  getGroupedRecordStore : W → String → String → CollectionOptions → KVPrefix → R × W
  /-- The call `KVEngine::dropIdent(opCtx, ident)`. -/
  dropIdent : W → String → Status × W
  /-- The call `KVEngine::getIdentSize(opCtx, ident)`, an `int64_t`. -/
  getIdentSize : W → String → Int
  /-- The call `RecordStore::storageSize(opCtx)`, an `int64_t`. -/
  storageSize : W → R → Int
  /-- The call `CollectionCatalogEntry::getAllIndexes(opCtx, &names)`. -/
  getAllIndexes : W → KVCollectionCatalogEntry R → List String

/-- A call the file makes to a collaborator, with its arguments. -/
inductive Call where
  | newCollection (nss : NamespaceString) (options : CollectionOptions) (idIndexSpec : BSONObj)
  | findEntry (ns : String)
  | dropCollection (ns : String)
  | getMetaData (ns : String)
  | getNextPrefix (nss : NamespaceString)
  | getGroupedRecordStore (ns ident : String) (options : CollectionOptions) (kvPrefix : KVPrefix)
  | dropIdent (ident : String)
  | isNonRepairableFeatureInUse (feature : NonRepairableFeature)
  | markNonRepairableFeatureAsInUse (feature : NonRepairableFeature)

/-- Whether a call asks the storage engine to open a record store. -/
def Call.isGetGroupedRecordStore : Call → Bool
  | Call.getGroupedRecordStore _ _ _ _ => true
  | _ => false

/-- Whether a call is `KVCatalog::newCollection`. -/
def Call.isNewCollection : Call → Bool
  | Call.newCollection _ _ _ => true
  | _ => false

/-- Whether a call is `markNonRepairableFeatureAsInUse`. -/
def Call.isMarkNonRepairableFeatureAsInUse : Call → Bool
  | Call.markNonRepairableFeatureAsInUse _ => true
  | _ => false

/-- The class `RecoveryUnit::Change` with the two subclasses the file declares, each with
the members its constructor stores. -/
inductive Change (R : Type) where
  | AddCollectionChange (collection ident : String) (dropOnRollback : Bool)
  | RemoveCollectionChange (collection ident : String)
      (entry : Option (KVCollectionCatalogEntry R)) (dropOnCommit : Bool)

/-! ## The state and the outcome of a call -/

/-- The state a member function runs in: the members `name()`, `_collections` and the
state behind `_engine`, the changes registered with `opCtx->recoveryUnit()`, and
the collaborator calls made so far. -/
structure KVDatabaseCatalogEntryBase (W R : Type) where
  name : String
  _collections : CollectionCatalogMap R
  _engine : W
  changes : List (Change R)
  calls : List Call

/-- How a call ends: it returns a value, it throws, or it aborts the process (a failed
`invariant`, `MONGO_UNREACHABLE`). -/
inductive Outcome (α : Type) where
  | returned (value : α)
  | threw
  | aborted

/-- The state with one more collaborator call recorded. -/
def KVDatabaseCatalogEntryBase.record {W R : Type} (st : KVDatabaseCatalogEntryBase W R)
    (c : Call) : KVDatabaseCatalogEntryBase W R :=
  { st with calls := st.calls ++ [c] }

/-- The conversion of a sum to `int64_t`: the source accumulates sizes with `size +=` on an
`int64_t`, here two's complement. -/
def wrapInt64 (x : Int) : Int := (x + 2 ^ 63) % 2 ^ 64 - 2 ^ 63

namespace KVDatabaseCatalogEntryBase

variable {W R : Type}

/-! ## The member functions -/

/-- The member `isEmpty()`. -/
def isEmpty (st : KVDatabaseCatalogEntryBase W R) : Bool :=
  List.isEmpty st._collections

/-- The member `sizeOnDisk(opCtx)`: the two nested loops over `_collections` and over the
index names of each entry. -/
def sizeOnDisk (K : KVStorageEngine W R) (_opCtx : OperationContext)
    (st : KVDatabaseCatalogEntryBase W R) : Int :=
  List.foldl
    (fun size _collection =>
      let coll := _collection.2
      let size1 := wrapInt64 (size + K.storageSize st._engine coll.getRecordStore)
      let indexNames := K.getAllIndexes st._engine coll
      List.foldl
        (fun size indexName =>
          let ident := K.getIndexIdent st._engine coll.ns indexName
          wrapInt64 (size + K.getIdentSize st._engine ident))
        size1 indexNames)
    0 st._collections

/-- The lines of `createKVCollectionCatalogEntry` that fill `md`: a default-constructed
`MetaData`, parsed from the element `md` of the document when that element is an
object. -/
def metaDataOfDocument (K : KVStorageEngine W R) (obj : BSONObj) : MetaData :=
  let mdElement := BSONObj.getField obj "md"
  if mdElement.isABSONObj then K.parse mdElement.Obj
  else { ns := "", options := { collation := [] }, kvPrefix := { value := -1 } }

/-- The member `createKVCollectionCatalogEntry(opCtx, ns)`: the lazy load of an entry from
the catalog document of `ns`. -/
def createKVCollectionCatalogEntry (K : KVStorageEngine W R) (_opCtx : OperationContext)
    (st : KVDatabaseCatalogEntryBase W R) (ns : String) :
    Outcome (Option (KVCollectionCatalogEntry R)) × KVDatabaseCatalogEntryBase W R :=
  match CollectionCatalogMap.find st._collections ns with
  | some e => (Outcome.returned (some e), st)
  | none =>
    let obj := K.findEntry st._engine ns
    let st1 := st.record (Call.findEntry ns)
    if BSONObj.isEmpty obj then
      (Outcome.returned none, st1)
    else if K.isFeatureDocument obj then
      (Outcome.returned none, st1)
    else
      let md := metaDataOfDocument K obj
      match (BSONObj.getField obj "ident").checkAndGetStringData with
      | none => (Outcome.threw, st1)
      | some ident =>
        let o := K.getGroupedRecordStore st1._engine ns ident md.options md.kvPrefix
        let st2 : KVDatabaseCatalogEntryBase W R :=
          { st1.record (Call.getGroupedRecordStore ns ident md.options md.kvPrefix) with
            _engine := o.2 }
        let m := CollectionCatalogMap.try_emplace st2._collections ns
          { ns := ns, ident := ns, rs := o.1 }
        (Outcome.returned (CollectionCatalogMap.find m ns), { st2 with _collections := m })

/-- The member `getCollectionCatalogEntry(opCtx, ns)`. -/
def getCollectionCatalogEntry (K : KVStorageEngine W R) (opCtx : OperationContext)
    (st : KVDatabaseCatalogEntryBase W R) (ns : String) :
    Outcome (Option (KVCollectionCatalogEntry R)) × KVDatabaseCatalogEntryBase W R :=
  match CollectionCatalogMap.find st._collections ns with
  | some e => (Outcome.returned (some e), st)
  | none => createKVCollectionCatalogEntry K opCtx st ns

/-- The member `getRecordStore(ns)`, a `const` function: `none` is `nullptr`. -/
def getRecordStore (st : KVDatabaseCatalogEntryBase W R) (ns : String) : Option R :=
  match CollectionCatalogMap.find st._collections ns with
  | some e => some e.getRecordStore
  | none => none

/-- The overload `createCollection(opCtx, ns, options, allocateDefaultSpace)`: its first
statement is `MONGO_UNREACHABLE`, so a call ends the process before anything else
runs. -/
def createCollection_allocateDefaultSpace (_K : KVStorageEngine W R)
    (_opCtx : OperationContext) (st : KVDatabaseCatalogEntryBase W R) (_ns : String)
    (_options : CollectionOptions) (_allocateDefaultSpace : Bool) :
    Outcome Status × KVDatabaseCatalogEntryBase W R :=
  (Outcome.aborted, st)

/-- The overload `createCollection(opCtx, nss, options, idIndexSpec)`. -/
def createCollection (K : KVStorageEngine W R) (_opCtx : OperationContext)
    (st : KVDatabaseCatalogEntryBase W R) (nss : NamespaceString)
    (options : CollectionOptions) (idIndexSpec : BSONObj) :
    Outcome Status × KVDatabaseCatalogEntryBase W R :=
  if nss.isEmpty then
    (Outcome.returned ⟨ErrorCodes.BadValue, "Collection namespace cannot be empty"⟩, st)
  else
    let status := K.newCollection st._engine nss options idIndexSpec
    let st1 : KVDatabaseCatalogEntryBase W R :=
      { st.record (Call.newCollection nss options idIndexSpec) with _engine := status.2 }
    if status.1.isOK then
      match CollectionCatalogMap.find st1._collections nss.toStringData with
      | none =>
        let kvPrefix := K.getNextPrefix st1._engine nss
        let st2 : KVDatabaseCatalogEntryBase W R :=
          { st1.record (Call.getNextPrefix nss) with _engine := kvPrefix.2 }
        let rs := K.getGroupedRecordStore st2._engine nss.toStringData nss.toStringData
          options kvPrefix.1
        let st3 : KVDatabaseCatalogEntryBase W R :=
          { st2.record (Call.getGroupedRecordStore nss.toStringData nss.toStringData
              options kvPrefix.1) with _engine := rs.2 }
        (Outcome.returned Status.OK,
          { st3 with
            _collections := CollectionCatalogMap.try_emplace st3._collections nss.toString
              { ns := nss.toStringData, ident := nss.toStringData, rs := rs.1 } })
      | some _ => (Outcome.returned Status.OK, st1)
    else
      (Outcome.returned status.1, st1)

/-- The member `initCollection(opCtx, ns, forRepair)`: `assert(forRepair == false)` and the
`invariant` on `_collections.count(ns)` end the process when they fail; the record
store the engine returns is never null, which is what `invariant(rs)` states. -/
def initCollection (K : KVStorageEngine W R) (_opCtx : OperationContext)
    (st : KVDatabaseCatalogEntryBase W R) (ns : String) (forRepair : Bool) :
    Outcome Unit × KVDatabaseCatalogEntryBase W R :=
  if forRepair then (Outcome.aborted, st)
  else
    let ident := ns
    let md := K.getMetaData st._engine ns
    let st1 := st.record (Call.getMetaData ns)
    let rs := K.getGroupedRecordStore st1._engine ns ident md.options md.kvPrefix
    let st2 : KVDatabaseCatalogEntryBase W R :=
      { st1.record (Call.getGroupedRecordStore ns ident md.options md.kvPrefix) with
        _engine := rs.2 }
    match CollectionCatalogMap.find st2._collections ns with
    | some _ => (Outcome.aborted, st2)
    | none =>
      (Outcome.returned (),
        { st2 with
          _collections := CollectionCatalogMap.try_emplace st2._collections ns
            { ns := ns, ident := ident, rs := rs.1 } })

/-- The member `dropCollection(opCtx, ns)`: the `invariant` on the database lock, the
`erase`, then the catalog call whose status is returned. -/
def dropCollection (K : KVStorageEngine W R) (opCtx : OperationContext)
    (st : KVDatabaseCatalogEntryBase W R) (ns : String) :
    Outcome Status × KVDatabaseCatalogEntryBase W R :=
  if opCtx.isDbLockedForMode st.name LockMode.MODE_X then
    let st1 : KVDatabaseCatalogEntryBase W R :=
      { st with _collections := CollectionCatalogMap.erase st._collections ns }
    let status := K.dropCollection st1._engine ns
    (Outcome.returned status.1,
      { st1.record (Call.dropCollection ns) with _engine := status.2 })
  else
    (Outcome.aborted, st)

end KVDatabaseCatalogEntryBase

/-- The members `rollback()` of the two `Change` subclasses: `AddCollectionChange` drops
the ident when `_dropOnRollback` (the status is ignored) and erases `_collection`
from the map when it is a key; `RemoveCollectionChange::rollback` has an empty
body. -/
def Change.rollback {W R : Type} (K : KVStorageEngine W R) (ch : Change R)
    (st : KVDatabaseCatalogEntryBase W R) : KVDatabaseCatalogEntryBase W R :=
  match ch with
  | Change.AddCollectionChange collection ident dropOnRollback =>
    let st1 : KVDatabaseCatalogEntryBase W R :=
      if dropOnRollback then
        { st.record (Call.dropIdent ident) with _engine := (K.dropIdent st._engine ident).2 }
      else st
    match CollectionCatalogMap.find st1._collections collection with
    | some _ =>
      { st1 with _collections := CollectionCatalogMap.erase st1._collections collection }
    | none => st1
  | Change.RemoveCollectionChange _ _ _ _ => st

/-- The members `commit()` of the two `Change` subclasses: `AddCollectionChange::commit` has
an empty body; `RemoveCollectionChange::commit` deletes the entry it holds and drops
the ident when `_dropOnCommit` (the status is ignored). -/
def Change.commit {W R : Type} (K : KVStorageEngine W R) (ch : Change R)
    (st : KVDatabaseCatalogEntryBase W R) : KVDatabaseCatalogEntryBase W R :=
  match ch with
  | Change.AddCollectionChange _ _ _ => st
  | Change.RemoveCollectionChange _ ident _ dropOnCommit =>
    if dropOnCommit then
      { st.record (Call.dropIdent ident) with _engine := (K.dropIdent st._engine ident).2 }
    else st

/-- Modelled from the spec: the abort of the surrounding transaction, which belongs to the
transaction manager (`RecoveryUnit`), not to the translated file.  The write of the
transaction to the catalog is undone, which leaves the collaborators in the state
`undone`; then the `rollback` of every registered Change runs, the last registered
first, and the list of registered changes is emptied. -/
def abortTransaction {W R : Type} (K : KVStorageEngine W R) (undone : W)
    (st : KVDatabaseCatalogEntryBase W R) : KVDatabaseCatalogEntryBase W R :=
  let rolled := List.foldl (fun s ch => Change.rollback K ch s)
    { st with _engine := undone } (List.reverse st.changes)
  { rolled with changes := [] }

/-! ## A catalog and an engine to run the member functions on -/

/-- Modelled from the spec: the state of CatalogStore and StorageEngine.  The catalog
holds one document per namespace, the names of the indexes of each namespace and the
feature flags in use; the engine knows the size of each ident and counts the record
stores it has opened; `nextIdent` and `nextPrefix` number the idents and prefixes
handed out so far. -/
structure SpecWorld where
  documents : List (String × BSONObj)
  indexNames : List (String × List String)
  featuresInUse : List NonRepairableFeature
  identSizes : List (String × Int)
  nextIdent : Nat
  nextPrefix : Nat
  opened : Nat

/-- Modelled from the spec: an opened record store, which remembers the ident and the
prefix it was opened with and which open of the engine produced it. -/
structure SpecRecordStore where
  ident : String
  kvPrefix : KVPrefix
  serial : Nat
  deriving DecidableEq

/-- Modelled from the spec: the catalog document of section 6,
`{ ns, ident, md: { options, prefix } }`. -/
def specDocument (ns ident : String) (options : CollectionOptions) (kvPrefix : Nat) :
    BSONObj :=
  [("ns", BSONElement.string ns),
   ("ident", BSONElement.string ident),
   ("md", BSONElement.object
     [("options", BSONElement.object [("collation", BSONElement.object options.collation)]),
      ("prefix", BSONElement.numberLong kvPrefix)])]

/-- Modelled from the spec: the metadata read back from the `md` field of a document. -/
def specParse (md : BSONObj) : MetaData :=
  { ns := ""
    options :=
      { collation := (BSONObj.getField (BSONObj.getField md "options").Obj "collation").Obj }
    kvPrefix :=
      match BSONObj.getField md "prefix" with
      | BSONElement.numberLong value => { value := value }
      | _ => { value := -1 } }

/-- Modelled from the spec: the document of a namespace, the empty document when there is
none (`CatalogStore.findEntry`). -/
def specFindEntry (w : SpecWorld) (ns : String) : BSONObj :=
  match List.find? (fun d => decide (d.1 = ns)) w.documents with
  | some d => d.2
  | none => []

/-- Modelled from the spec: the size the engine reports for an ident, 0 for an ident it
does not know (`StorageEngine.getIdentSize`). -/
def specIdentSize (w : SpecWorld) (ident : String) : Int :=
  match List.find? (fun d => decide (d.1 = ident)) w.identSizes with
  | some d => d.2
  | none => 0

/-- Modelled from the spec: CatalogStore and StorageEngine.  `newCollection` fails with
`AlreadyExists` on a namespace that has a document and otherwise assigns the next
ident and prefix and persists the document; `dropCollection` fails with `NotFound`
on a namespace without a document and otherwise removes the document; the feature
document is the one whose first field is the marker `isFeatureDoc`; opening a record
store never fails. -/
def specEngine : KVStorageEngine SpecWorld SpecRecordStore where
  newCollection w nss options _ :=
    if (specFindEntry w nss.ns).isEmpty then
      (Status.OK,
        { w with
          documents := w.documents ++
            [(nss.ns, specDocument nss.ns ("collection-" ++ toString w.nextIdent) options
              w.nextPrefix)]
          nextIdent := w.nextIdent + 1
          nextPrefix := w.nextPrefix + 1 })
    else (⟨ErrorCodes.AlreadyExists, "collection already exists"⟩, w)
  findEntry := specFindEntry
  dropCollection w ns :=
    if (specFindEntry w ns).isEmpty then (⟨ErrorCodes.NotFound, "no such collection"⟩, w)
    else
      (Status.OK,
        { w with documents := List.filter (fun d => !decide (d.1 = ns)) w.documents })
  getMetaData w ns := specParse (BSONObj.getField (specFindEntry w ns) "md").Obj
  getIndexIdent _ ns indexName := ns ++ ".$" ++ indexName
  isFeatureDocument obj :=
    match obj with
    | ("isFeatureDoc", BSONElement.bool true) :: _ => true
    | _ => false
  isNonRepairableFeatureInUse w feature := decide (feature ∈ w.featuresInUse)
  markNonRepairableFeatureAsInUse w feature :=
    { w with featuresInUse := feature :: w.featuresInUse }
  parse := specParse
  getNextPrefix w _ := ({ value := w.nextPrefix }, { w with nextPrefix := w.nextPrefix + 1 })
  getGroupedRecordStore w _ ident _ kvPrefix :=
    ({ ident := ident, kvPrefix := kvPrefix, serial := w.opened },
      { w with opened := w.opened + 1 })
  dropIdent w _ := (Status.OK, w)
  getIdentSize := specIdentSize
  storageSize w rs := specIdentSize w rs.ident
  getAllIndexes w e :=
    match List.find? (fun d => decide (d.1 = e.ns)) w.indexNames with
    | some d => d.2
    | none => []

/-- An operation context that holds every database lock in every mode. -/
def lockedOpCtx : OperationContext := { isDbLockedForMode := fun _ _ => true }

/-- The collaborators before anything is created. -/
def emptyWorld : SpecWorld :=
  { documents := [], indexNames := [], featuresInUse := [], identSizes := [],
    nextIdent := 0, nextPrefix := 0, opened := 0 }

/-- The registry of database `db` on `emptyWorld`: nothing cached, nothing registered,
nothing called. -/
def emptyRegistry : KVDatabaseCatalogEntryBase SpecWorld SpecRecordStore :=
  { name := "db", _collections := [], _engine := emptyWorld, changes := [], calls := [] }

/-- Collection options without a collation. -/
def defaultOptions : CollectionOptions := { collation := [] }

/-- Collection options with the collation `{ locale: "fr" }`. -/
def frenchOptions : CollectionOptions :=
  { collation := [("locale", BSONElement.string "fr")] }

/-- The size the spec gives for one entry: the storage size of its record store plus, over
its index names, the size of the ident the catalog maps the index name to. -/
def sizeOfEntry {W R : Type} (K : KVStorageEngine W R) (w : W)
    (coll : KVCollectionCatalogEntry R) : Int :=
  K.storageSize w coll.getRecordStore +
    List.sum (List.map (fun indexName => K.getIdentSize w (K.getIndexIdent w coll.ns indexName))
      (K.getAllIndexes w coll))

/-- The size the spec gives for the registry: the sum of `sizeOfEntry` over all entries of
`_collections`, as a mathematical integer. -/
def sumOfSizes {W R : Type} (K : KVStorageEngine W R) (st : KVDatabaseCatalogEntryBase W R) :
    Int :=
  List.sum (List.map (fun b => sizeOfEntry K st._engine b.2) st._collections)

/-- A registry with two cached collections, `db.a` with two indexes and `db.b` with one,
on an engine that knows the size of each of the five idents. -/
def sizedRegistry : KVDatabaseCatalogEntryBase SpecWorld SpecRecordStore :=
  { emptyRegistry with
    _collections :=
      [("db.a", ⟨"db.a", "db.a", ⟨"db.a", ⟨0⟩, 0⟩⟩), ("db.b", ⟨"db.b", "db.b", ⟨"db.b", ⟨1⟩, 1⟩⟩)]
    _engine :=
      { emptyWorld with
        indexNames := [("db.a", ["_id_", "x_1"]), ("db.b", ["_id_"])]
        identSizes :=
          [("db.a", 4096), ("db.b", 8192), ("db.a.$_id_", 100), ("db.a.$x_1", 20),
            ("db.b.$_id_", 3)] } }

/-- The collaborator calls made between the state `before` and the later state `after`. -/
def callsSince {W R : Type} (before after : KVDatabaseCatalogEntryBase W R) : List Call :=
  List.drop before.calls.length after.calls

/-- The registry of database `db` with nothing cached, on a catalog that holds the document
of `db.foo` (the collaborators' state that creating `db.foo` leaves). -/
def fooPersisted : KVDatabaseCatalogEntryBase SpecWorld SpecRecordStore :=
  { emptyRegistry with
    _engine := (specEngine.newCollection emptyWorld ⟨"db.foo"⟩ defaultOptions []).2 }

/-- A catalog whose only document is a feature document, stored under `db.features`. -/
def featureWorld : SpecWorld :=
  { emptyWorld with
    documents :=
      [("db.features",
        [("isFeatureDoc", BSONElement.bool true), ("nonRepairable", BSONElement.numberLong 1)])] }

/-- The registry of database `db` on `featureWorld`, nothing cached. -/
def featureRegistry : KVDatabaseCatalogEntryBase SpecWorld SpecRecordStore :=
  { emptyRegistry with _engine := featureWorld }

/-- The registry `emptyRegistry` after `createCollection` of `db.foo` with default options. -/
def fooCreated : KVDatabaseCatalogEntryBase SpecWorld SpecRecordStore :=
  (KVDatabaseCatalogEntryBase.createCollection specEngine lockedOpCtx emptyRegistry
    ⟨"db.foo"⟩ defaultOptions []).2

/-- The registry after `db.foo` was created and the transaction then aborted with the catalog
back to `emptyWorld`: the entry of `db.foo` is cached, the catalog has no document
for it. -/
def fooOrphaned : KVDatabaseCatalogEntryBase SpecWorld SpecRecordStore :=
  abortTransaction specEngine emptyWorld fooCreated

/-- A call of one of the four reachable member functions that write `_collections`, with its
arguments. -/
inductive Operation where
  | createCollection (opCtx : OperationContext) (nss : NamespaceString)
      (options : CollectionOptions) (idIndexSpec : BSONObj)
  | getCollectionCatalogEntry (opCtx : OperationContext) (ns : String)
  | initCollection (opCtx : OperationContext) (ns : String) (forRepair : Bool)
  | dropCollection (opCtx : OperationContext) (ns : String)

/-- The state one call leaves.  A call that throws or ends the process leaves the state it
had reached at that point. -/
def Operation.run {W R : Type} (K : KVStorageEngine W R) (op : Operation)
    (st : KVDatabaseCatalogEntryBase W R) : KVDatabaseCatalogEntryBase W R :=
  match op with
  | Operation.createCollection opCtx nss options idIndexSpec =>
    (KVDatabaseCatalogEntryBase.createCollection K opCtx st nss options idIndexSpec).2
  | Operation.getCollectionCatalogEntry opCtx ns =>
    (KVDatabaseCatalogEntryBase.getCollectionCatalogEntry K opCtx st ns).2
  | Operation.initCollection opCtx ns forRepair =>
    (KVDatabaseCatalogEntryBase.initCollection K opCtx st ns forRepair).2
  | Operation.dropCollection opCtx ns =>
    (KVDatabaseCatalogEntryBase.dropCollection K opCtx st ns).2

/-- The state a finite sequence of calls leaves, the first call of the list first. -/
def runOperations {W R : Type} (K : KVStorageEngine W R)
    (st : KVDatabaseCatalogEntryBase W R) (ops : List Operation) :
    KVDatabaseCatalogEntryBase W R :=
  List.foldl (fun s op => Operation.run K op s) st ops

/-- The idents of the entries of a map, one per binding, in the order of the bindings. -/
def CollectionCatalogMap.idents {R : Type} (m : CollectionCatalogMap R) : List String :=
  List.map (fun b => b.2.ident) m

/-- The keys of a map, one per binding, in the order of the bindings. -/
def CollectionCatalogMap.keys {R : Type} (m : CollectionCatalogMap R) : List String :=
  List.map (fun b => b.1) m

/-- The property the member functions keep: no key is bound twice, and the ident of every
entry is the key it is bound to. -/
def CollectionCatalogMap.identIsKey {R : Type} (m : CollectionCatalogMap R) : Prop :=
  List.Nodup (CollectionCatalogMap.keys m) ∧ ∀ b ∈ m, b.2.ident = b.1

/-- A sequence of calls on `emptyRegistry`: two creations, a lookup that hits, an
`initCollection`, a lookup that loads nothing, a second creation of `db.foo`, and a
drop. -/
def sampleOperations : List Operation :=
  [Operation.createCollection lockedOpCtx ⟨"db.foo"⟩ defaultOptions [],
   Operation.createCollection lockedOpCtx ⟨"db.bar"⟩ frenchOptions [],
   Operation.getCollectionCatalogEntry lockedOpCtx "db.foo",
   Operation.initCollection lockedOpCtx "db.baz" false,
   Operation.getCollectionCatalogEntry lockedOpCtx "db.qux",
   Operation.createCollection lockedOpCtx ⟨"db.foo"⟩ defaultOptions [],
   Operation.dropCollection lockedOpCtx "db.bar"]

/-! ## Facts about the map -/

theorem CollectionCatalogMap.find_append_of_none {R : Type} (m : CollectionCatalogMap R)
    (ns : String) (e : KVCollectionCatalogEntry R)
    (h : CollectionCatalogMap.find m ns = none) :
    CollectionCatalogMap.find (m ++ [(ns, e)]) ns = some e := by
  induction m with
  | nil => simp [CollectionCatalogMap.find]
  | cons b rest ih =>
    obtain ⟨k, v⟩ := b
    by_cases hk : k = ns
    · simp [CollectionCatalogMap.find, hk] at h
    · simp only [CollectionCatalogMap.find, hk, if_false] at h
      simp only [List.cons_append, CollectionCatalogMap.find, hk, if_false]
      exact ih h

theorem CollectionCatalogMap.find_try_emplace_of_none {R : Type} (m : CollectionCatalogMap R)
    (ns : String) (e : KVCollectionCatalogEntry R)
    (h : CollectionCatalogMap.find m ns = none) :
    CollectionCatalogMap.find (CollectionCatalogMap.try_emplace m ns e) ns = some e := by
  simp only [CollectionCatalogMap.try_emplace, h]
  exact CollectionCatalogMap.find_append_of_none m ns e h

theorem CollectionCatalogMap.try_emplace_of_some {R : Type} (m : CollectionCatalogMap R)
    (ns : String) (e e0 : KVCollectionCatalogEntry R)
    (h : CollectionCatalogMap.find m ns = some e0) :
    CollectionCatalogMap.try_emplace m ns e = m := by
  simp only [CollectionCatalogMap.try_emplace, h]

theorem CollectionCatalogMap.find_erase_self {R : Type} (m : CollectionCatalogMap R)
    (ns : String) :
    CollectionCatalogMap.find (CollectionCatalogMap.erase m ns) ns = none := by
  induction m with
  | nil => rfl
  | cons b rest ih =>
    obtain ⟨k, v⟩ := b
    by_cases hk : k = ns
    · simpa [CollectionCatalogMap.erase, hk] using ih
    · simp only [CollectionCatalogMap.erase] at ih
      simp [CollectionCatalogMap.erase, CollectionCatalogMap.find, hk, ih]

theorem callsSince_self {W R : Type} (st : KVDatabaseCatalogEntryBase W R) :
    callsSince st st = [] := by
  simp [callsSince]

theorem callsSince_append {W R : Type} (st st1 : KVDatabaseCatalogEntryBase W R)
    (cs : List Call) (h : st1.calls = st.calls ++ cs) : callsSince st st1 = cs := by
  simp [callsSince, h]

open KVDatabaseCatalogEntryBase

/-! ## The four ways `createCollection` ends -/

theorem createCollection_of_isEmpty {W R : Type} (K : KVStorageEngine W R)
    (opCtx : OperationContext) (st : KVDatabaseCatalogEntryBase W R) (nss : NamespaceString)
    (options : CollectionOptions) (idIndexSpec : BSONObj) (hempty : nss.isEmpty = true) :
    createCollection K opCtx st nss options idIndexSpec =
      (Outcome.returned ⟨ErrorCodes.BadValue, "Collection namespace cannot be empty"⟩, st) := by
  simp only [createCollection, hempty, if_true]

theorem createCollection_of_not_isOK {W R : Type} (K : KVStorageEngine W R)
    (opCtx : OperationContext) (st : KVDatabaseCatalogEntryBase W R) (nss : NamespaceString)
    (options : CollectionOptions) (idIndexSpec : BSONObj) (hempty : nss.isEmpty = false)
    (hnew : (K.newCollection st._engine nss options idIndexSpec).1.isOK = false) :
    createCollection K opCtx st nss options idIndexSpec =
      (Outcome.returned (K.newCollection st._engine nss options idIndexSpec).1,
        { st with
          _engine := (K.newCollection st._engine nss options idIndexSpec).2
          calls := st.calls ++ [Call.newCollection nss options idIndexSpec] }) := by
  simp only [createCollection, hempty, hnew, Bool.false_eq_true, if_false,
    KVDatabaseCatalogEntryBase.record]

theorem createCollection_of_cached {W R : Type} (K : KVStorageEngine W R)
    (opCtx : OperationContext) (st : KVDatabaseCatalogEntryBase W R) (nss : NamespaceString)
    (options : CollectionOptions) (idIndexSpec : BSONObj) (hempty : nss.isEmpty = false)
    (hnew : (K.newCollection st._engine nss options idIndexSpec).1.isOK = true)
    (e : KVCollectionCatalogEntry R)
    (hfind : CollectionCatalogMap.find st._collections nss.ns = some e) :
    createCollection K opCtx st nss options idIndexSpec =
      (Outcome.returned Status.OK,
        { st with
          _engine := (K.newCollection st._engine nss options idIndexSpec).2
          calls := st.calls ++ [Call.newCollection nss options idIndexSpec] }) := by
  simp only [createCollection, hempty, hnew, Bool.false_eq_true, if_false, if_true,
    KVDatabaseCatalogEntryBase.record, NamespaceString.toStringData, hfind]

theorem createCollection_of_not_cached {W R : Type} (K : KVStorageEngine W R)
    (opCtx : OperationContext) (st : KVDatabaseCatalogEntryBase W R) (nss : NamespaceString)
    (options : CollectionOptions) (idIndexSpec : BSONObj) (hempty : nss.isEmpty = false)
    (hnew : (K.newCollection st._engine nss options idIndexSpec).1.isOK = true)
    (hfind : CollectionCatalogMap.find st._collections nss.ns = none) :
    createCollection K opCtx st nss options idIndexSpec =
      (Outcome.returned Status.OK,
        { st with
          _collections := st._collections ++
            [(nss.ns,
              { ns := nss.ns, ident := nss.ns,
                rs := (K.getGroupedRecordStore
                  (K.getNextPrefix (K.newCollection st._engine nss options idIndexSpec).2 nss).2
                  nss.ns nss.ns options
                  (K.getNextPrefix
                    (K.newCollection st._engine nss options idIndexSpec).2 nss).1).1 })]
          _engine := (K.getGroupedRecordStore
            (K.getNextPrefix (K.newCollection st._engine nss options idIndexSpec).2 nss).2
            nss.ns nss.ns options
            (K.getNextPrefix (K.newCollection st._engine nss options idIndexSpec).2 nss).1).2
          calls := st.calls ++
            [Call.newCollection nss options idIndexSpec, Call.getNextPrefix nss,
              Call.getGroupedRecordStore nss.ns nss.ns options
                (K.getNextPrefix
                  (K.newCollection st._engine nss options idIndexSpec).2 nss).1] }) := by
  simp only [createCollection, hempty, hnew, Bool.false_eq_true, if_false, if_true,
    KVDatabaseCatalogEntryBase.record, NamespaceString.toStringData,
    NamespaceString.toString, hfind, CollectionCatalogMap.try_emplace, List.append_assoc,
    List.cons_append, List.nil_append]

/-- A call of `createCollection` that returns an OK status had a non-empty namespace and an
OK status from `newCollection`. -/
theorem createCollection_ok_inv {W R : Type} (K : KVStorageEngine W R)
    (opCtx : OperationContext) (st : KVDatabaseCatalogEntryBase W R) (nss : NamespaceString)
    (options : CollectionOptions) (idIndexSpec : BSONObj)
    (hok : ∃ s, (createCollection K opCtx st nss options idIndexSpec).1 = Outcome.returned s ∧
      s.isOK = true) :
    nss.isEmpty = false ∧ (K.newCollection st._engine nss options idIndexSpec).1.isOK = true := by
  obtain ⟨s, hs, hsok⟩ := hok
  cases hempty : nss.isEmpty with
  | true =>
    rw [createCollection_of_isEmpty K opCtx st nss options idIndexSpec hempty] at hs
    cases hs
    simp [Status.isOK] at hsok
  | false =>
    refine ⟨rfl, ?_⟩
    cases hnew : (K.newCollection st._engine nss options idIndexSpec).1.isOK with
    | true => rfl
    | false =>
      rw [createCollection_of_not_isOK K opCtx st nss options idIndexSpec hempty hnew] at hs
      cases hs
      rw [hnew] at hsok
      cases hsok

theorem getCollectionCatalogEntry_of_cached {W R : Type} (K : KVStorageEngine W R)
    (opCtx : OperationContext) (st : KVDatabaseCatalogEntryBase W R) (ns : String)
    (e : KVCollectionCatalogEntry R)
    (hfind : CollectionCatalogMap.find st._collections ns = some e) :
    getCollectionCatalogEntry K opCtx st ns = (Outcome.returned (some e), st) := by
  simp only [getCollectionCatalogEntry, hfind]

/-! ## `createCollection` followed by `getCollectionCatalogEntry` -/

/-- Claim C1, the statement the code satisfies: when `createCollection` returns an OK status,
`getCollectionCatalogEntry` of the same namespace right after it returns the entry cached
under the namespace and changes nothing.  If the namespace was not cached before
`createCollection`, the `ident` (and the `ns`) of that entry is the namespace string
itself, which the code passes as ident; no ident is read from the catalog.  If it was
cached, the entry is the one that was cached before. -/
theorem createCollection_then_getCollectionCatalogEntry {W R : Type}
    (K : KVStorageEngine W R) (opCtx : OperationContext)
    (st : KVDatabaseCatalogEntryBase W R) (nss : NamespaceString)
    (options : CollectionOptions) (idIndexSpec : BSONObj)
    (hok : ∃ s, (createCollection K opCtx st nss options idIndexSpec).1 = Outcome.returned s ∧
      s.isOK = true) :
    ∃ h,
      getCollectionCatalogEntry K opCtx
          (createCollection K opCtx st nss options idIndexSpec).2 nss.ns =
        (Outcome.returned (some h), (createCollection K opCtx st nss options idIndexSpec).2) ∧
      (CollectionCatalogMap.find st._collections nss.ns = none →
        h.ident = nss.ns ∧ h.ns = nss.ns) ∧
      (∀ h0, CollectionCatalogMap.find st._collections nss.ns = some h0 → h = h0) := by
  obtain ⟨hempty, hnew⟩ := createCollection_ok_inv K opCtx st nss options idIndexSpec hok
  cases hfind : CollectionCatalogMap.find st._collections nss.ns with
  | none =>
    rw [createCollection_of_not_cached K opCtx st nss options idIndexSpec hempty hnew hfind]
    refine ⟨_, getCollectionCatalogEntry_of_cached K opCtx _ nss.ns _
      (CollectionCatalogMap.find_append_of_none _ _ _ hfind), fun _ => ⟨rfl, rfl⟩, ?_⟩
    intro h0 h
    cases h
  | some e =>
    rw [createCollection_of_cached K opCtx st nss options idIndexSpec hempty hnew e hfind]
    refine ⟨e, getCollectionCatalogEntry_of_cached K opCtx _ nss.ns e hfind, ?_, ?_⟩
    · intro h
      cases h
    · intro h0 h
      cases h
      rfl

/-- Witness of `createCollection_then_getCollectionCatalogEntry`: `db.foo` created on the
empty registry. -/
theorem createCollection_then_getCollectionCatalogEntry_witness :
    ∃ h,
      getCollectionCatalogEntry specEngine lockedOpCtx
          (createCollection specEngine lockedOpCtx emptyRegistry ⟨"db.foo"⟩
            defaultOptions []).2 "db.foo" =
        (Outcome.returned (some h),
          (createCollection specEngine lockedOpCtx emptyRegistry ⟨"db.foo"⟩
            defaultOptions []).2) ∧
      (CollectionCatalogMap.find emptyRegistry._collections "db.foo" = none →
        h.ident = "db.foo" ∧ h.ns = "db.foo") ∧
      (∀ h0, CollectionCatalogMap.find emptyRegistry._collections "db.foo" = some h0 →
        h = h0) :=
  createCollection_then_getCollectionCatalogEntry specEngine lockedOpCtx emptyRegistry
    ⟨"db.foo"⟩ defaultOptions [] ⟨Status.OK, rfl, rfl⟩

/-- Claim C1 as the spec states it fails on `db.foo` created on the empty registry over the
modelled catalog: `createCollection` returns OK and the catalog document of `db.foo`
carries the ident `collection-0`, while the entry `getCollectionCatalogEntry` returns
has the ident `db.foo`. -/
theorem createCollection_ident_counterexample :
    ¬ ((∃ s, (createCollection specEngine lockedOpCtx emptyRegistry ⟨"db.foo"⟩
          defaultOptions []).1 = Outcome.returned s ∧ s.isOK = true) →
      ∃ h, (getCollectionCatalogEntry specEngine lockedOpCtx fooCreated "db.foo").1 =
          Outcome.returned (some h) ∧
        (BSONObj.getField (specEngine.findEntry fooCreated._engine "db.foo")
          "ident").checkAndGetStringData = some h.ident) := by
  intro hclaim
  obtain ⟨h, hget, hident⟩ := hclaim ⟨Status.OK, rfl, rfl⟩
  have hentry : (getCollectionCatalogEntry specEngine lockedOpCtx fooCreated "db.foo").1 =
      Outcome.returned (some ⟨"db.foo", "db.foo", ⟨"db.foo", ⟨1⟩, 0⟩⟩) := rfl
  have hdoc : (BSONObj.getField (specEngine.findEntry fooCreated._engine "db.foo")
      "ident").checkAndGetStringData = some "collection-0" := rfl
  rw [hentry] at hget
  rw [hdoc] at hident
  cases hget
  simp at hident

/-! ## Failures of `createCollection` -/

/-- Claim C2: for a non-empty namespace, when `CatalogStore.newCollection` returns a status
that is not OK, `createCollection` returns exactly that status, `_collections` is the
map it was before the call, and the only collaborator call made is that
`newCollection`, so the engine is not asked to open a record store. -/
theorem createCollection_newCollection_failure {W R : Type} (K : KVStorageEngine W R)
    (opCtx : OperationContext) (st : KVDatabaseCatalogEntryBase W R) (nss : NamespaceString)
    (options : CollectionOptions) (idIndexSpec : BSONObj) (hne : nss.isEmpty = false)
    (hfail : (K.newCollection st._engine nss options idIndexSpec).1.isOK = false) :
    (createCollection K opCtx st nss options idIndexSpec).1 =
        Outcome.returned (K.newCollection st._engine nss options idIndexSpec).1 ∧
      (createCollection K opCtx st nss options idIndexSpec).2._collections = st._collections ∧
      callsSince st (createCollection K opCtx st nss options idIndexSpec).2 =
        [Call.newCollection nss options idIndexSpec] ∧
      List.any (callsSince st (createCollection K opCtx st nss options idIndexSpec).2)
        Call.isGetGroupedRecordStore = false := by
  rw [createCollection_of_not_isOK K opCtx st nss options idIndexSpec hne hfail]
  have hcalls : callsSince st
      { st with
        _engine := (K.newCollection st._engine nss options idIndexSpec).2
        calls := st.calls ++ [Call.newCollection nss options idIndexSpec] } =
      [Call.newCollection nss options idIndexSpec] := callsSince_append st _ _ rfl
  refine ⟨rfl, rfl, hcalls, ?_⟩
  rw [hcalls]
  rfl

/-- Witness of `createCollection_newCollection_failure`: `db.foo` created a second time; the
modelled catalog answers `AlreadyExists`. -/
theorem createCollection_newCollection_failure_witness :
    (specEngine.newCollection fooCreated._engine ⟨"db.foo"⟩ defaultOptions []).1 =
        ⟨ErrorCodes.AlreadyExists, "collection already exists"⟩ ∧
      ((createCollection specEngine lockedOpCtx fooCreated ⟨"db.foo"⟩ defaultOptions []).1 =
          Outcome.returned
            (specEngine.newCollection fooCreated._engine ⟨"db.foo"⟩ defaultOptions []).1 ∧
        (createCollection specEngine lockedOpCtx fooCreated ⟨"db.foo"⟩
          defaultOptions []).2._collections = fooCreated._collections ∧
        callsSince fooCreated
            (createCollection specEngine lockedOpCtx fooCreated ⟨"db.foo"⟩
              defaultOptions []).2 =
          [Call.newCollection ⟨"db.foo"⟩ defaultOptions []] ∧
        List.any
          (callsSince fooCreated
            (createCollection specEngine lockedOpCtx fooCreated ⟨"db.foo"⟩
              defaultOptions []).2)
          Call.isGetGroupedRecordStore = false) :=
  ⟨rfl, createCollection_newCollection_failure specEngine lockedOpCtx fooCreated ⟨"db.foo"⟩
    defaultOptions [] rfl rfl⟩

/-- Claim C3, the statement the code satisfies: `createCollection` with the empty namespace
returns the status `BadValue` with the reason `Collection namespace cannot be empty`,
calls no collaborator, in particular not `newCollection`, and leaves `_collections`
and the rest of the state as they were. -/
theorem createCollection_empty_namespace {W R : Type} (K : KVStorageEngine W R)
    (opCtx : OperationContext) (st : KVDatabaseCatalogEntryBase W R)
    (options : CollectionOptions) (idIndexSpec : BSONObj) :
    (createCollection K opCtx st ⟨""⟩ options idIndexSpec).1 =
        Outcome.returned ⟨ErrorCodes.BadValue, "Collection namespace cannot be empty"⟩ ∧
      List.any (callsSince st (createCollection K opCtx st ⟨""⟩ options idIndexSpec).2)
        Call.isNewCollection = false ∧
      (createCollection K opCtx st ⟨""⟩ options idIndexSpec).2._collections =
        st._collections ∧
      (createCollection K opCtx st ⟨""⟩ options idIndexSpec).2 = st := by
  rw [createCollection_of_isEmpty K opCtx st ⟨""⟩ options idIndexSpec rfl]
  refine ⟨rfl, ?_, rfl, rfl⟩
  show List.any (callsSince st st) Call.isNewCollection = false
  rw [callsSince_self]
  rfl

/-- Claim C3 as the spec states it fails on the empty registry: the status returned for the
empty namespace does not carry the code `InvalidArgument` (it carries `BadValue`). -/
theorem createCollection_empty_namespace_counterexample :
    ¬ ((∃ s, (createCollection specEngine lockedOpCtx emptyRegistry ⟨""⟩
          defaultOptions []).1 = Outcome.returned s ∧ s.code = ErrorCodes.InvalidArgument) ∧
      List.any
          (callsSince emptyRegistry
            (createCollection specEngine lockedOpCtx emptyRegistry ⟨""⟩ defaultOptions []).2)
          Call.isNewCollection = false ∧
      (createCollection specEngine lockedOpCtx emptyRegistry ⟨""⟩
        defaultOptions []).2._collections = emptyRegistry._collections) := by
  rintro ⟨⟨s, hs, hcode⟩, _⟩
  have hbad : (createCollection specEngine lockedOpCtx emptyRegistry ⟨""⟩
      defaultOptions []).1 =
      Outcome.returned ⟨ErrorCodes.BadValue, "Collection namespace cannot be empty"⟩ := rfl
  rw [hbad] at hs
  cases hs
  cases hcode

/-! ## Lookups that find no collection -/

theorem getCollectionCatalogEntry_of_no_collection {W R : Type} (K : KVStorageEngine W R)
    (opCtx : OperationContext) (st : KVDatabaseCatalogEntryBase W R) (ns : String)
    (hmiss : CollectionCatalogMap.find st._collections ns = none)
    (hdoc : BSONObj.isEmpty (K.findEntry st._engine ns) = true ∨
      K.isFeatureDocument (K.findEntry st._engine ns) = true) :
    getCollectionCatalogEntry K opCtx st ns =
      (Outcome.returned none, { st with calls := st.calls ++ [Call.findEntry ns] }) := by
  simp only [getCollectionCatalogEntry, createKVCollectionCatalogEntry, hmiss,
    KVDatabaseCatalogEntryBase.record]
  cases hE : BSONObj.isEmpty (K.findEntry st._engine ns) with
  | true => simp only [if_true]
  | false =>
    rcases hdoc with h | h
    · rw [hE] at h
      cases h
    · simp only [Bool.false_eq_true, if_false, h, if_true]

/-- Claim C5: for a namespace that is not a key of `_collections`, when the document
`findEntry` returns is empty or is a feature document, `getCollectionCatalogEntry`
returns nothing, `_collections` and the collaborators' state are unchanged, and the
only collaborator call made is that `findEntry`, so the engine is not asked to open a
record store. -/
theorem getCollectionCatalogEntry_miss_without_collection {W R : Type}
    (K : KVStorageEngine W R) (opCtx : OperationContext)
    (st : KVDatabaseCatalogEntryBase W R) (ns : String)
    (hmiss : CollectionCatalogMap.find st._collections ns = none)
    (hdoc : BSONObj.isEmpty (K.findEntry st._engine ns) = true ∨
      K.isFeatureDocument (K.findEntry st._engine ns) = true) :
    (getCollectionCatalogEntry K opCtx st ns).1 = Outcome.returned none ∧
      (getCollectionCatalogEntry K opCtx st ns).2._collections = st._collections ∧
      (getCollectionCatalogEntry K opCtx st ns).2._engine = st._engine ∧
      callsSince st (getCollectionCatalogEntry K opCtx st ns).2 = [Call.findEntry ns] ∧
      List.any (callsSince st (getCollectionCatalogEntry K opCtx st ns).2)
        Call.isGetGroupedRecordStore = false := by
  rw [getCollectionCatalogEntry_of_no_collection K opCtx st ns hmiss hdoc]
  have hcalls : callsSince st { st with calls := st.calls ++ [Call.findEntry ns] } =
      [Call.findEntry ns] := callsSince_append st _ _ rfl
  refine ⟨rfl, rfl, rfl, hcalls, ?_⟩
  rw [hcalls]
  rfl

/-- Witness of `getCollectionCatalogEntry_miss_without_collection`: `db.foo` on the empty
registry, where the catalog has no document, and `db.features` on a registry whose
catalog holds a feature document under that name. -/
theorem getCollectionCatalogEntry_miss_without_collection_witness :
    ((getCollectionCatalogEntry specEngine lockedOpCtx emptyRegistry "db.foo").1 =
        Outcome.returned none ∧
      (getCollectionCatalogEntry specEngine lockedOpCtx emptyRegistry "db.foo").2._collections =
        emptyRegistry._collections ∧
      (getCollectionCatalogEntry specEngine lockedOpCtx emptyRegistry "db.foo").2._engine =
        emptyRegistry._engine ∧
      callsSince emptyRegistry
          (getCollectionCatalogEntry specEngine lockedOpCtx emptyRegistry "db.foo").2 =
        [Call.findEntry "db.foo"] ∧
      List.any
        (callsSince emptyRegistry
          (getCollectionCatalogEntry specEngine lockedOpCtx emptyRegistry "db.foo").2)
        Call.isGetGroupedRecordStore = false) ∧
    (specEngine.isFeatureDocument (specEngine.findEntry featureRegistry._engine "db.features") =
        true ∧
      (getCollectionCatalogEntry specEngine lockedOpCtx featureRegistry "db.features").1 =
        Outcome.returned none) :=
  ⟨getCollectionCatalogEntry_miss_without_collection specEngine lockedOpCtx emptyRegistry
      "db.foo" rfl (Or.inl rfl),
    rfl,
    (getCollectionCatalogEntry_miss_without_collection specEngine lockedOpCtx featureRegistry
      "db.features" rfl (Or.inr rfl)).1⟩

/-! ## `dropCollection` -/

theorem dropCollection_of_locked {W R : Type} (K : KVStorageEngine W R)
    (opCtx : OperationContext) (st : KVDatabaseCatalogEntryBase W R) (ns : String)
    (hlock : opCtx.isDbLockedForMode st.name LockMode.MODE_X = true) :
    dropCollection K opCtx st ns =
      (Outcome.returned (K.dropCollection st._engine ns).1,
        { st with
          _collections := CollectionCatalogMap.erase st._collections ns
          _engine := (K.dropCollection st._engine ns).2
          calls := st.calls ++ [Call.dropCollection ns] }) := by
  simp only [dropCollection, hlock, if_true, KVDatabaseCatalogEntryBase.record]

theorem dropCollection_of_not_locked {W R : Type} (K : KVStorageEngine W R)
    (opCtx : OperationContext) (st : KVDatabaseCatalogEntryBase W R) (ns : String)
    (hlock : opCtx.isDbLockedForMode st.name LockMode.MODE_X = false) :
    dropCollection K opCtx st ns = (Outcome.aborted, st) := by
  simp only [dropCollection, hlock, Bool.false_eq_true, if_false]

/-- Claim C4: with `CatalogStore.dropCollection` removing the document of `ns` when it
returns OK (hypothesis `hremoves`), after `dropCollection` of `ns` returns an OK status,
whether `ns` was cached or not: `findEntry` of `ns` is empty, `ns` is not a key of
`_collections`, `getCollectionCatalogEntry` of `ns` returns nothing, and `ns` is still
not a key after that lookup. -/
theorem dropCollection_then_absent {W R : Type} (K : KVStorageEngine W R)
    (opCtx : OperationContext) (st : KVDatabaseCatalogEntryBase W R) (ns : String)
    (hremoves : (K.dropCollection st._engine ns).1.isOK = true →
      BSONObj.isEmpty (K.findEntry (K.dropCollection st._engine ns).2 ns) = true)
    (hok : ∃ s, (dropCollection K opCtx st ns).1 = Outcome.returned s ∧ s.isOK = true) :
    BSONObj.isEmpty (K.findEntry (dropCollection K opCtx st ns).2._engine ns) = true ∧
      CollectionCatalogMap.find (dropCollection K opCtx st ns).2._collections ns = none ∧
      (getCollectionCatalogEntry K opCtx (dropCollection K opCtx st ns).2 ns).1 =
        Outcome.returned none ∧
      CollectionCatalogMap.find
        (getCollectionCatalogEntry K opCtx (dropCollection K opCtx st ns).2 ns).2._collections
        ns = none := by
  obtain ⟨s, hs, hsok⟩ := hok
  cases hlock : opCtx.isDbLockedForMode st.name LockMode.MODE_X with
  | false =>
    rw [dropCollection_of_not_locked K opCtx st ns hlock] at hs
    cases hs
  | true =>
    rw [dropCollection_of_locked K opCtx st ns hlock] at hs ⊢
    cases hs
    have hdoc := hremoves hsok
    have hmiss := CollectionCatalogMap.find_erase_self st._collections ns
    have hget := getCollectionCatalogEntry_of_no_collection K opCtx
      { st with
        _collections := CollectionCatalogMap.erase st._collections ns
        _engine := (K.dropCollection st._engine ns).2
        calls := st.calls ++ [Call.dropCollection ns] } ns hmiss (Or.inl hdoc)
    rw [hget]
    exact ⟨hdoc, hmiss, rfl, hmiss⟩

/-- Witness of `dropCollection_then_absent`: `db.foo` created on the empty registry and then
dropped; the modelled catalog removes the document and returns OK. -/
theorem dropCollection_then_absent_witness :
    (dropCollection specEngine lockedOpCtx fooCreated "db.foo").1 =
        Outcome.returned Status.OK ∧
      (BSONObj.isEmpty
          (specEngine.findEntry
            (dropCollection specEngine lockedOpCtx fooCreated "db.foo").2._engine "db.foo") =
          true ∧
        CollectionCatalogMap.find
          (dropCollection specEngine lockedOpCtx fooCreated "db.foo").2._collections
          "db.foo" = none ∧
        (getCollectionCatalogEntry specEngine lockedOpCtx
          (dropCollection specEngine lockedOpCtx fooCreated "db.foo").2 "db.foo").1 =
          Outcome.returned none ∧
        CollectionCatalogMap.find
          (getCollectionCatalogEntry specEngine lockedOpCtx
            (dropCollection specEngine lockedOpCtx fooCreated "db.foo").2
            "db.foo").2._collections
          "db.foo" = none) :=
  ⟨rfl, dropCollection_then_absent specEngine lockedOpCtx fooCreated "db.foo" (fun _ => rfl)
    ⟨Status.OK, rfl, rfl⟩⟩

/-! ## Lookups that load, and repeated lookups -/

theorem getCollectionCatalogEntry_of_bad_ident {W R : Type} (K : KVStorageEngine W R)
    (opCtx : OperationContext) (st : KVDatabaseCatalogEntryBase W R) (ns : String)
    (hmiss : CollectionCatalogMap.find st._collections ns = none)
    (hdoc : BSONObj.isEmpty (K.findEntry st._engine ns) = false)
    (hfeature : K.isFeatureDocument (K.findEntry st._engine ns) = false)
    (hident : (BSONObj.getField (K.findEntry st._engine ns) "ident").checkAndGetStringData =
      none) :
    getCollectionCatalogEntry K opCtx st ns =
      (Outcome.threw, { st with calls := st.calls ++ [Call.findEntry ns] }) := by
  simp only [getCollectionCatalogEntry, createKVCollectionCatalogEntry, hmiss,
    KVDatabaseCatalogEntryBase.record, hdoc, hfeature, Bool.false_eq_true, if_false, hident]

theorem getCollectionCatalogEntry_of_document {W R : Type} (K : KVStorageEngine W R)
    (opCtx : OperationContext) (st : KVDatabaseCatalogEntryBase W R) (ns ident : String)
    (hmiss : CollectionCatalogMap.find st._collections ns = none)
    (hdoc : BSONObj.isEmpty (K.findEntry st._engine ns) = false)
    (hfeature : K.isFeatureDocument (K.findEntry st._engine ns) = false)
    (hident : (BSONObj.getField (K.findEntry st._engine ns) "ident").checkAndGetStringData =
      some ident) :
    getCollectionCatalogEntry K opCtx st ns =
      (Outcome.returned (some
          { ns := ns, ident := ns,
            rs := (K.getGroupedRecordStore st._engine ns ident
              (metaDataOfDocument K (K.findEntry st._engine ns)).options
              (metaDataOfDocument K (K.findEntry st._engine ns)).kvPrefix).1 }),
        { st with
          _collections := st._collections ++
            [(ns,
              { ns := ns, ident := ns,
                rs := (K.getGroupedRecordStore st._engine ns ident
                  (metaDataOfDocument K (K.findEntry st._engine ns)).options
                  (metaDataOfDocument K (K.findEntry st._engine ns)).kvPrefix).1 })]
          _engine := (K.getGroupedRecordStore st._engine ns ident
            (metaDataOfDocument K (K.findEntry st._engine ns)).options
            (metaDataOfDocument K (K.findEntry st._engine ns)).kvPrefix).2
          calls := st.calls ++
            [Call.findEntry ns,
              Call.getGroupedRecordStore ns ident
                (metaDataOfDocument K (K.findEntry st._engine ns)).options
                (metaDataOfDocument K (K.findEntry st._engine ns)).kvPrefix] }) := by
  simp only [getCollectionCatalogEntry, createKVCollectionCatalogEntry, hmiss,
    KVDatabaseCatalogEntryBase.record, hdoc, hfeature, Bool.false_eq_true, if_false, hident,
    CollectionCatalogMap.try_emplace, CollectionCatalogMap.find_append_of_none _ _ _ hmiss,
    List.append_assoc, List.cons_append, List.nil_append]

/-- The ways `getCollectionCatalogEntry` ends, by what it returns and what it leaves: the
state is untouched and an entry returned, or only `findEntry` is called and nothing
is returned or the call throws, or an entry is loaded, cached and returned. -/
theorem getCollectionCatalogEntry_cases {W R : Type} (K : KVStorageEngine W R)
    (opCtx : OperationContext) (st : KVDatabaseCatalogEntryBase W R) (ns : String) :
    (∃ e, CollectionCatalogMap.find st._collections ns = some e ∧
        getCollectionCatalogEntry K opCtx st ns = (Outcome.returned (some e), st)) ∨
      (CollectionCatalogMap.find st._collections ns = none ∧
        ((getCollectionCatalogEntry K opCtx st ns).1 = Outcome.returned none ∨
          (getCollectionCatalogEntry K opCtx st ns).1 = Outcome.threw) ∧
        (getCollectionCatalogEntry K opCtx st ns).2 =
          { st with calls := st.calls ++ [Call.findEntry ns] }) ∨
      (∃ e, CollectionCatalogMap.find st._collections ns = none ∧
        (getCollectionCatalogEntry K opCtx st ns).1 = Outcome.returned (some e) ∧
        CollectionCatalogMap.find (getCollectionCatalogEntry K opCtx st ns).2._collections ns =
          some e) := by
  cases hfind : CollectionCatalogMap.find st._collections ns with
  | some e => exact Or.inl ⟨e, rfl, getCollectionCatalogEntry_of_cached K opCtx st ns e hfind⟩
  | none =>
    right
    cases hdoc : BSONObj.isEmpty (K.findEntry st._engine ns) with
    | true =>
      left
      rw [getCollectionCatalogEntry_of_no_collection K opCtx st ns hfind (Or.inl hdoc)]
      exact ⟨rfl, Or.inl rfl, rfl⟩
    | false =>
      cases hfeature : K.isFeatureDocument (K.findEntry st._engine ns) with
      | true =>
        left
        rw [getCollectionCatalogEntry_of_no_collection K opCtx st ns hfind (Or.inr hfeature)]
        exact ⟨rfl, Or.inl rfl, rfl⟩
      | false =>
        cases hident :
            (BSONObj.getField (K.findEntry st._engine ns) "ident").checkAndGetStringData with
        | none =>
          left
          rw [getCollectionCatalogEntry_of_bad_ident K opCtx st ns hfind hdoc hfeature hident]
          exact ⟨rfl, Or.inr rfl, rfl⟩
        | some ident =>
          right
          rw [getCollectionCatalogEntry_of_document K opCtx st ns ident hfind hdoc hfeature
            hident]
          exact ⟨_, rfl, rfl, CollectionCatalogMap.find_append_of_none _ _ _ hfind⟩

/-- What `getCollectionCatalogEntry` returns and the map it leaves depend on the state only
through `_collections` and the collaborators' state. -/
theorem getCollectionCatalogEntry_congr {W R : Type} (K : KVStorageEngine W R)
    (opCtx : OperationContext) (st st1 : KVDatabaseCatalogEntryBase W R) (ns : String)
    (hmap : st1._collections = st._collections) (hengine : st1._engine = st._engine) :
    (getCollectionCatalogEntry K opCtx st1 ns).1 = (getCollectionCatalogEntry K opCtx st ns).1 ∧
      (getCollectionCatalogEntry K opCtx st1 ns).2._collections =
        (getCollectionCatalogEntry K opCtx st ns).2._collections ∧
      callsSince st1 (getCollectionCatalogEntry K opCtx st1 ns).2 =
        callsSince st (getCollectionCatalogEntry K opCtx st ns).2 := by
  cases hfind : CollectionCatalogMap.find st._collections ns with
  | some e =>
    rw [getCollectionCatalogEntry_of_cached K opCtx st ns e hfind,
      getCollectionCatalogEntry_of_cached K opCtx st1 ns e (hmap ▸ hfind)]
    exact ⟨rfl, hmap, by rw [callsSince_self, callsSince_self]⟩
  | none =>
    have hfind1 : CollectionCatalogMap.find st1._collections ns = none := hmap ▸ hfind
    cases hdoc : BSONObj.isEmpty (K.findEntry st._engine ns) with
    | true =>
      rw [getCollectionCatalogEntry_of_no_collection K opCtx st ns hfind (Or.inl hdoc),
        getCollectionCatalogEntry_of_no_collection K opCtx st1 ns hfind1
          (Or.inl (hengine ▸ hdoc))]
      exact ⟨rfl, hmap, by
        rw [callsSince_append st1 _ _ rfl, callsSince_append st _ _ rfl]⟩
    | false =>
      cases hfeature : K.isFeatureDocument (K.findEntry st._engine ns) with
      | true =>
        rw [getCollectionCatalogEntry_of_no_collection K opCtx st ns hfind (Or.inr hfeature),
          getCollectionCatalogEntry_of_no_collection K opCtx st1 ns hfind1
            (Or.inr (hengine ▸ hfeature))]
        exact ⟨rfl, hmap, by
          rw [callsSince_append st1 _ _ rfl, callsSince_append st _ _ rfl]⟩
      | false =>
        cases hident :
            (BSONObj.getField (K.findEntry st._engine ns) "ident").checkAndGetStringData with
        | none =>
          rw [getCollectionCatalogEntry_of_bad_ident K opCtx st ns hfind hdoc hfeature hident,
            getCollectionCatalogEntry_of_bad_ident K opCtx st1 ns hfind1 (hengine ▸ hdoc)
              (hengine ▸ hfeature) (hengine ▸ hident)]
          exact ⟨rfl, hmap, by
            rw [callsSince_append st1 _ _ rfl, callsSince_append st _ _ rfl]⟩
        | some ident =>
          rw [getCollectionCatalogEntry_of_document K opCtx st ns ident hfind hdoc hfeature
              hident,
            getCollectionCatalogEntry_of_document K opCtx st1 ns ident hfind1 (hengine ▸ hdoc)
              (hengine ▸ hfeature) (hengine ▸ hident)]
          refine ⟨?_, ?_, ?_⟩
          · simp only [hengine]
          · simp only [hengine, hmap]
          · rw [callsSince_append st1 _ _ rfl, callsSince_append st _ _ rfl, hengine]

/-- Claim C7: `getCollectionCatalogEntry` called twice in a row on the same namespace returns
the same result both times (the same entry, hence the same ident and the same record
store), the second call leaves `_collections` as the first call left it and asks the
engine for no record store, and when the first call returned an entry the second call
is a plain hit of the map that changes nothing and calls no collaborator. -/
theorem getCollectionCatalogEntry_twice {W R : Type} (K : KVStorageEngine W R)
    (opCtx : OperationContext) (st : KVDatabaseCatalogEntryBase W R) (ns : String) :
    (getCollectionCatalogEntry K opCtx (getCollectionCatalogEntry K opCtx st ns).2 ns).1 =
        (getCollectionCatalogEntry K opCtx st ns).1 ∧
      (getCollectionCatalogEntry K opCtx
          (getCollectionCatalogEntry K opCtx st ns).2 ns).2._collections =
        (getCollectionCatalogEntry K opCtx st ns).2._collections ∧
      List.any
          (callsSince (getCollectionCatalogEntry K opCtx st ns).2
            (getCollectionCatalogEntry K opCtx (getCollectionCatalogEntry K opCtx st ns).2 ns).2)
          Call.isGetGroupedRecordStore = false ∧
      (∀ h, (getCollectionCatalogEntry K opCtx st ns).1 = Outcome.returned (some h) →
        getCollectionCatalogEntry K opCtx (getCollectionCatalogEntry K opCtx st ns).2 ns =
          (Outcome.returned (some h), (getCollectionCatalogEntry K opCtx st ns).2)) := by
  rcases getCollectionCatalogEntry_cases K opCtx st ns with
    ⟨e, hfind, hget⟩ | ⟨hfind, hres, hst⟩ | ⟨e, _, hres, hfind2⟩
  · rw [hget]
    simp only [hget]
    refine ⟨trivial, trivial, ?_, ?_⟩
    · rw [callsSince_self]
      rfl
    · intro h hh
      cases hh
      rfl
  · have hmap : (getCollectionCatalogEntry K opCtx st ns).2._collections = st._collections := by
      rw [hst]
    have hengine : (getCollectionCatalogEntry K opCtx st ns).2._engine = st._engine := by
      rw [hst]
    obtain ⟨h1, h2, h3⟩ := getCollectionCatalogEntry_congr K opCtx st
      (getCollectionCatalogEntry K opCtx st ns).2 ns hmap hengine
    refine ⟨h1, h2, ?_, ?_⟩
    · rw [h3, callsSince_append st _ [Call.findEntry ns] (by rw [hst])]
      rfl
    · intro h hh
      rcases hres with hnone | hthrew
      · rw [hnone] at hh
        cases hh
      · rw [hthrew] at hh
        cases hh
  · have hsecond := getCollectionCatalogEntry_of_cached K opCtx
      (getCollectionCatalogEntry K opCtx st ns).2 ns e hfind2
    rw [hsecond]
    refine ⟨hres.symm, rfl, ?_, ?_⟩
    · rw [callsSince_self]
      rfl
    · intro h hh
      rw [hres] at hh
      cases hh
      rfl

/-! ## `getRecordStore` -/

/-- Claim C6, the statement the code satisfies: `getRecordStore` of a namespace is the
record store of the entry cached under it in `_collections`, and is absent exactly
when the namespace is not a key of `_collections`; it never loads.  For a cached
namespace that entry is the one `getCollectionCatalogEntry` returns, so there the two
agree. -/
theorem getRecordStore_eq_cached {W R : Type} (K : KVStorageEngine W R)
    (opCtx : OperationContext) (st : KVDatabaseCatalogEntryBase W R) (ns : String) :
    getRecordStore st ns =
        Option.map KVCollectionCatalogEntry.getRecordStore
          (CollectionCatalogMap.find st._collections ns) ∧
      (getRecordStore st ns = none ↔ CollectionCatalogMap.find st._collections ns = none) ∧
      (∀ e, CollectionCatalogMap.find st._collections ns = some e →
        (getCollectionCatalogEntry K opCtx st ns).1 = Outcome.returned (some e) ∧
          getRecordStore st ns = some e.getRecordStore) := by
  cases hfind : CollectionCatalogMap.find st._collections ns with
  | none =>
    refine ⟨?_, ?_, ?_⟩
    · simp only [getRecordStore, hfind, Option.map]
    · simp only [getRecordStore, hfind]
    · intro e he
      cases he
  | some e0 =>
    refine ⟨?_, ?_, ?_⟩
    · simp only [getRecordStore, hfind, Option.map]
    · simp only [getRecordStore, hfind]
      constructor <;> intro h <;> cases h
    · intro e he
      cases he
      rw [getCollectionCatalogEntry_of_cached K opCtx st ns e0 hfind]
      simp only [getRecordStore, hfind]
      exact ⟨trivial, trivial⟩

/-- Claim C6 as the spec states it fails on `db.foo` when the catalog holds its document and
nothing is cached: `getCollectionCatalogEntry` loads and returns an entry, while
`getRecordStore` returns `nullptr`, so it is not the record store of what
`getCollectionCatalogEntry` returns. -/
theorem getRecordStore_counterexample :
    ¬ ∃ r, (getCollectionCatalogEntry specEngine lockedOpCtx fooPersisted "db.foo").1 =
        Outcome.returned r ∧
      getRecordStore fooPersisted "db.foo" =
        Option.map KVCollectionCatalogEntry.getRecordStore r := by
  rintro ⟨r, hget, hrs⟩
  have hentry : (getCollectionCatalogEntry specEngine lockedOpCtx fooPersisted "db.foo").1 =
      Outcome.returned (some ⟨"db.foo", "db.foo", ⟨"collection-0", ⟨0⟩, 0⟩⟩) := rfl
  have hnull : getRecordStore fooPersisted "db.foo" = none := rfl
  rw [hentry] at hget
  rw [hnull] at hrs
  cases hget
  cases hrs

/-! ## `sizeOnDisk` -/

theorem wrapInt64_add_wrapInt64 (a b : Int) :
    wrapInt64 (wrapInt64 a + b) = wrapInt64 (a + b) := by
  unfold wrapInt64
  norm_num
  omega

theorem wrapInt64_of_inRange (a : Int) (hlo : -(2 ^ 63) ≤ a) (hhi : a < 2 ^ 63) :
    wrapInt64 a = a := by
  unfold wrapInt64
  norm_num at hlo hhi ⊢
  omega

/-- A loop `size += f x` over a list, run in `int64_t`, ends with the `int64_t` of the
start value plus the sum of the `f x`. -/
theorem foldl_wrapInt64 {α : Type} (f : α → Int) (l : List α) (a : Int) :
    List.foldl (fun size x => wrapInt64 (size + f x)) (wrapInt64 a) l =
      wrapInt64 (a + List.sum (List.map f l)) := by
  induction l generalizing a with
  | nil => simp
  | cons x rest ih =>
    simp only [List.foldl_cons, List.map_cons, List.sum_cons]
    rw [ih (wrapInt64 a + f x), add_assoc, wrapInt64_add_wrapInt64]

theorem sizeOnDisk_eq_wrapInt64 {W R : Type} (K : KVStorageEngine W R)
    (opCtx : OperationContext) (st : KVDatabaseCatalogEntryBase W R) :
    sizeOnDisk K opCtx st = wrapInt64 (sumOfSizes K st) := by
  have hbody : (fun (size : Int) (_collection : String × KVCollectionCatalogEntry R) =>
        List.foldl
          (fun size indexName =>
            wrapInt64 (size + K.getIdentSize st._engine
              (K.getIndexIdent st._engine _collection.2.ns indexName)))
          (wrapInt64 (size + K.storageSize st._engine _collection.2.getRecordStore))
          (K.getAllIndexes st._engine _collection.2)) =
      fun size _collection => wrapInt64 (size + sizeOfEntry K st._engine _collection.2) := by
    funext size _collection
    rw [foldl_wrapInt64
      (fun indexName => K.getIdentSize st._engine
        (K.getIndexIdent st._engine _collection.2.ns indexName))]
    simp only [sizeOfEntry, add_assoc]
  have hzero : (0 : Int) = wrapInt64 0 := by
    unfold wrapInt64
    norm_num
  unfold sizeOnDisk sumOfSizes
  simp only []
  rw [hbody, hzero]
  have hloop := foldl_wrapInt64
    (fun (b : String × KVCollectionCatalogEntry R) => sizeOfEntry K st._engine b.2)
    st._collections 0
  rw [zero_add] at hloop
  exact hloop

/-- Claim C8: `sizeOnDisk` is the sum, over the entries of `_collections`, of the storage
size of the entry's record store plus the sizes of the idents of its indexes
(`sumOfSizes`), taken in the `int64_t` the loop accumulates in; it is that sum itself
whenever the sum is an `int64_t` value, and it is 0 for an empty map. -/
theorem sizeOnDisk_eq_sumOfSizes {W R : Type} (K : KVStorageEngine W R)
    (opCtx : OperationContext) (st : KVDatabaseCatalogEntryBase W R) :
    sizeOnDisk K opCtx st = wrapInt64 (sumOfSizes K st) ∧
      (-(2 ^ 63) ≤ sumOfSizes K st ∧ sumOfSizes K st < 2 ^ 63 →
        sizeOnDisk K opCtx st = sumOfSizes K st) ∧
      (st._collections = [] → sizeOnDisk K opCtx st = 0) := by
  refine ⟨sizeOnDisk_eq_wrapInt64 K opCtx st, ?_, ?_⟩
  · rintro ⟨hlo, hhi⟩
    rw [sizeOnDisk_eq_wrapInt64, wrapInt64_of_inRange _ hlo hhi]
  · intro hnil
    simp only [sizeOnDisk, hnil, List.foldl_nil]

/-- The fixture of the spec for `sizeOnDisk_eq_sumOfSizes`: two collections and three
indexes with known sizes; the sum is in range and `sizeOnDisk` is 4096 + 100 + 20 +
8192 + 3. -/
theorem sizeOnDisk_eq_sumOfSizes_witness :
    sumOfSizes specEngine sizedRegistry = 12411 ∧
      sizeOnDisk specEngine lockedOpCtx sizedRegistry = sumOfSizes specEngine sizedRegistry :=
  ⟨by decide,
    (sizeOnDisk_eq_sumOfSizes specEngine lockedOpCtx sizedRegistry).2.1
      ⟨by decide, by decide⟩⟩

/-! ## `createCollection` and the surrounding transaction -/

/-- No path of `createCollection` registers a Change. -/
theorem createCollection_changes {W R : Type} (K : KVStorageEngine W R)
    (opCtx : OperationContext) (st : KVDatabaseCatalogEntryBase W R) (nss : NamespaceString)
    (options : CollectionOptions) (idIndexSpec : BSONObj) :
    (createCollection K opCtx st nss options idIndexSpec).2.changes = st.changes := by
  cases hempty : nss.isEmpty with
  | true => rw [createCollection_of_isEmpty K opCtx st nss options idIndexSpec hempty]
  | false =>
    cases hnew : (K.newCollection st._engine nss options idIndexSpec).1.isOK with
    | false => rw [createCollection_of_not_isOK K opCtx st nss options idIndexSpec hempty hnew]
    | true =>
      cases hfind : CollectionCatalogMap.find st._collections nss.ns with
      | some e =>
        rw [createCollection_of_cached K opCtx st nss options idIndexSpec hempty hnew e hfind]
      | none =>
        rw [createCollection_of_not_cached K opCtx st nss options idIndexSpec hempty hnew
          hfind]

/-- An abort with no registered Change only puts the collaborators in the undone state. -/
theorem abortTransaction_of_no_changes {W R : Type} (K : KVStorageEngine W R) (undone : W)
    (st : KVDatabaseCatalogEntryBase W R) (hnone : st.changes = []) :
    abortTransaction K undone st = { st with _engine := undone } := by
  simp only [abortTransaction, hnone, List.reverse_nil, List.foldl_nil]

/-- Claim C9, the statement the code satisfies: `createCollection` registers no Change.  So
when it succeeds on a namespace that was not cached, in a transaction with no Change
registered before it, and the transaction then aborts (the catalog write undone, the
rollback of every registered Change run, of which there is none), the namespace is
still a key of `_collections`, bound to the entry `createCollection` inserted, whose
ident is the namespace, and `getCollectionCatalogEntry` returns that entry. -/
theorem createCollection_then_abort {W R : Type} (K : KVStorageEngine W R)
    (opCtx : OperationContext) (st : KVDatabaseCatalogEntryBase W R) (nss : NamespaceString)
    (options : CollectionOptions) (idIndexSpec : BSONObj) (undone : W)
    (hmiss : CollectionCatalogMap.find st._collections nss.ns = none)
    (hnone : st.changes = [])
    (hok : ∃ s, (createCollection K opCtx st nss options idIndexSpec).1 = Outcome.returned s ∧
      s.isOK = true) :
    (createCollection K opCtx st nss options idIndexSpec).2.changes = [] ∧
      ∃ h,
        CollectionCatalogMap.find
            (abortTransaction K undone
              (createCollection K opCtx st nss options idIndexSpec).2)._collections nss.ns =
          some h ∧
        h.ident = nss.ns ∧
        getCollectionCatalogEntry K opCtx
            (abortTransaction K undone (createCollection K opCtx st nss options idIndexSpec).2)
            nss.ns =
          (Outcome.returned (some h),
            abortTransaction K undone
              (createCollection K opCtx st nss options idIndexSpec).2) := by
  have hchanges : (createCollection K opCtx st nss options idIndexSpec).2.changes = [] := by
    rw [createCollection_changes, hnone]
  refine ⟨hchanges, ?_⟩
  rw [abortTransaction_of_no_changes K undone _ hchanges]
  obtain ⟨hempty, hnew⟩ := createCollection_ok_inv K opCtx st nss options idIndexSpec hok
  rw [createCollection_of_not_cached K opCtx st nss options idIndexSpec hempty hnew hmiss]
  have hfind := CollectionCatalogMap.find_append_of_none st._collections nss.ns
    { ns := nss.ns, ident := nss.ns,
      rs := (K.getGroupedRecordStore
        (K.getNextPrefix (K.newCollection st._engine nss options idIndexSpec).2 nss).2
        nss.ns nss.ns options
        (K.getNextPrefix (K.newCollection st._engine nss options idIndexSpec).2 nss).1).1 }
    hmiss
  exact ⟨_, hfind, rfl, getCollectionCatalogEntry_of_cached K opCtx _ nss.ns _ hfind⟩

/-- Witness of `createCollection_then_abort`: `db.foo` created on the empty registry, then the
transaction aborted with the catalog back to `emptyWorld`. -/
theorem createCollection_then_abort_witness :
    (createCollection specEngine lockedOpCtx emptyRegistry ⟨"db.foo"⟩
        defaultOptions []).2.changes = [] ∧
      ∃ h,
        CollectionCatalogMap.find
            (abortTransaction specEngine emptyWorld
              (createCollection specEngine lockedOpCtx emptyRegistry ⟨"db.foo"⟩
                defaultOptions []).2)._collections "db.foo" =
          some h ∧
        h.ident = "db.foo" ∧
        getCollectionCatalogEntry specEngine lockedOpCtx
            (abortTransaction specEngine emptyWorld
              (createCollection specEngine lockedOpCtx emptyRegistry ⟨"db.foo"⟩
                defaultOptions []).2)
            "db.foo" =
          (Outcome.returned (some h),
            abortTransaction specEngine emptyWorld
              (createCollection specEngine lockedOpCtx emptyRegistry ⟨"db.foo"⟩
                defaultOptions []).2) :=
  createCollection_then_abort specEngine lockedOpCtx emptyRegistry ⟨"db.foo"⟩ defaultOptions
    [] emptyWorld rfl rfl ⟨Status.OK, rfl, rfl⟩

/-- Claim C9 as the spec states it fails on `db.foo` created on the empty registry: it was not
cached, `createCollection` returns OK, the transaction aborts with the catalog back
to `emptyWorld`, and still `getCollectionCatalogEntry` returns an entry and `db.foo` is
a key of `_collections`. -/
theorem createCollection_then_abort_counterexample :
    ¬ (CollectionCatalogMap.find emptyRegistry._collections "db.foo" = none →
      (createCollection specEngine lockedOpCtx emptyRegistry ⟨"db.foo"⟩ defaultOptions []).1 =
        Outcome.returned Status.OK →
      (getCollectionCatalogEntry specEngine lockedOpCtx
          (abortTransaction specEngine emptyWorld fooCreated) "db.foo").1 =
          Outcome.returned none ∧
        CollectionCatalogMap.find
          (abortTransaction specEngine emptyWorld fooCreated)._collections "db.foo" = none) := by
  intro hclaim
  obtain ⟨_, hkey⟩ := hclaim rfl rfl
  have hcached : CollectionCatalogMap.find
      (abortTransaction specEngine emptyWorld fooCreated)._collections "db.foo" =
      some ⟨"db.foo", "db.foo", ⟨"db.foo", ⟨1⟩, 0⟩⟩ := rfl
  rw [hcached] at hkey
  cases hkey

/-! ## `createCollection` and the feature tracker -/

/-- The overload with `allocateDefaultSpace`, the one place of the file that names the
feature tracker's `markNonRepairableFeatureAsInUse`, never returns. -/
theorem createCollection_allocateDefaultSpace_aborted {W R : Type} (K : KVStorageEngine W R)
    (opCtx : OperationContext) (st : KVDatabaseCatalogEntryBase W R) (ns : String)
    (options : CollectionOptions) (allocateDefaultSpace : Bool) :
    createCollection_allocateDefaultSpace K opCtx st ns options allocateDefaultSpace =
      (Outcome.aborted, st) :=
  rfl

/-- Claim C10, the statement the code satisfies: `createCollection` never calls
`markNonRepairableFeatureAsInUse`, whatever the collation of the options and whether
or not the feature was in use before.  The collaborator calls it makes are none (empty
namespace), or `newCollection` alone (failure, or namespace already cached), or
`newCollection`, `getNextPrefix` and `getGroupedRecordStore`; whether `kCollation` is
in use afterwards is up to those calls. -/
theorem createCollection_calls {W R : Type} (K : KVStorageEngine W R)
    (opCtx : OperationContext) (st : KVDatabaseCatalogEntryBase W R) (nss : NamespaceString)
    (options : CollectionOptions) (idIndexSpec : BSONObj) :
    List.any (callsSince st (createCollection K opCtx st nss options idIndexSpec).2)
        Call.isMarkNonRepairableFeatureAsInUse = false ∧
      (callsSince st (createCollection K opCtx st nss options idIndexSpec).2 = [] ∨
        callsSince st (createCollection K opCtx st nss options idIndexSpec).2 =
          [Call.newCollection nss options idIndexSpec] ∨
        callsSince st (createCollection K opCtx st nss options idIndexSpec).2 =
          [Call.newCollection nss options idIndexSpec, Call.getNextPrefix nss,
            Call.getGroupedRecordStore nss.ns nss.ns options
              (K.getNextPrefix (K.newCollection st._engine nss options idIndexSpec).2 nss).1]) := by
  have hcases :
      callsSince st (createCollection K opCtx st nss options idIndexSpec).2 = [] ∨
        callsSince st (createCollection K opCtx st nss options idIndexSpec).2 =
          [Call.newCollection nss options idIndexSpec] ∨
        callsSince st (createCollection K opCtx st nss options idIndexSpec).2 =
          [Call.newCollection nss options idIndexSpec, Call.getNextPrefix nss,
            Call.getGroupedRecordStore nss.ns nss.ns options
              (K.getNextPrefix (K.newCollection st._engine nss options idIndexSpec).2 nss).1] := by
    cases hempty : nss.isEmpty with
    | true =>
      rw [createCollection_of_isEmpty K opCtx st nss options idIndexSpec hempty]
      exact Or.inl (callsSince_self st)
    | false =>
      cases hnew : (K.newCollection st._engine nss options idIndexSpec).1.isOK with
      | false =>
        rw [createCollection_of_not_isOK K opCtx st nss options idIndexSpec hempty hnew]
        exact Or.inr (Or.inl (callsSince_append st _ _ rfl))
      | true =>
        cases hfind : CollectionCatalogMap.find st._collections nss.ns with
        | some e =>
          rw [createCollection_of_cached K opCtx st nss options idIndexSpec hempty hnew e hfind]
          exact Or.inr (Or.inl (callsSince_append st _ _ rfl))
        | none =>
          rw [createCollection_of_not_cached K opCtx st nss options idIndexSpec hempty hnew
            hfind]
          exact Or.inr (Or.inr (callsSince_append st _ _ rfl))
  refine ⟨?_, hcases⟩
  rcases hcases with h | h | h <;> rw [h] <;> rfl

/-- Claim C10 as the spec states it fails on `db.foo` created with the collation
`{ locale: "fr" }` on the empty registry: the call returns OK and the feature was not
in use before, yet `kCollation` is not in use afterwards and
`markNonRepairableFeatureAsInUse` was not called. -/
theorem createCollection_collation_counterexample :
    ¬ ((createCollection specEngine lockedOpCtx emptyRegistry ⟨"db.foo"⟩ frenchOptions []).1 =
        Outcome.returned Status.OK →
      BSONObj.isEmpty frenchOptions.collation = false →
      specEngine.isNonRepairableFeatureInUse
          (createCollection specEngine lockedOpCtx emptyRegistry ⟨"db.foo"⟩
            frenchOptions []).2._engine NonRepairableFeature.kCollation = true ∧
        (List.any
            (callsSince emptyRegistry
              (createCollection specEngine lockedOpCtx emptyRegistry ⟨"db.foo"⟩
                frenchOptions []).2)
            Call.isMarkNonRepairableFeatureAsInUse = true ↔
          specEngine.isNonRepairableFeatureInUse emptyRegistry._engine
            NonRepairableFeature.kCollation = false)) := by
  intro hclaim
  obtain ⟨_, hcalled⟩ := hclaim rfl rfl
  have hbefore : specEngine.isNonRepairableFeatureInUse emptyRegistry._engine
      NonRepairableFeature.kCollation = false := rfl
  have hcalls : List.any
      (callsSince emptyRegistry
        (createCollection specEngine lockedOpCtx emptyRegistry ⟨"db.foo"⟩ frenchOptions []).2)
      Call.isMarkNonRepairableFeatureAsInUse = false := rfl
  have hmarked := hcalled.mpr hbefore
  rw [hcalls] at hmarked
  cases hmarked

/-! ## More facts about the map -/

theorem CollectionCatalogMap.find_append_of_ne {R : Type} (m : CollectionCatalogMap R)
    (ns other : String) (e : KVCollectionCatalogEntry R) (hne : other ≠ ns) :
    CollectionCatalogMap.find (m ++ [(ns, e)]) other = CollectionCatalogMap.find m other := by
  induction m with
  | nil =>
    have hne1 : ¬ ns = other := fun h => hne h.symm
    simp only [List.nil_append, CollectionCatalogMap.find, hne1, if_false]
  | cons b rest ih =>
    obtain ⟨k, v⟩ := b
    by_cases hk : k = other
    · simp only [List.cons_append, CollectionCatalogMap.find, hk, if_true]
    · simp only [List.cons_append, CollectionCatalogMap.find, hk, if_false]
      exact ih

theorem CollectionCatalogMap.find_erase_of_ne {R : Type} (m : CollectionCatalogMap R)
    (ns other : String) (hne : other ≠ ns) :
    CollectionCatalogMap.find (CollectionCatalogMap.erase m ns) other =
      CollectionCatalogMap.find m other := by
  induction m with
  | nil => rfl
  | cons b rest ih =>
    obtain ⟨k, v⟩ := b
    simp only [CollectionCatalogMap.erase] at ih
    by_cases hk : k = ns
    · have hko : ¬ k = other := fun h => hne (h.symm.trans hk)
      simp only [CollectionCatalogMap.erase, List.filter_cons, hk, decide_True, Bool.not_true,
        Bool.false_eq_true, if_false, CollectionCatalogMap.find]
      rw [← hk] at ih ⊢
      simp only [hko, if_false]
      exact ih
    · simp only [CollectionCatalogMap.erase, List.filter_cons, hk, decide_False, Bool.not_false,
        if_true, CollectionCatalogMap.find]
      by_cases hko : k = other
      · simp only [hko, if_true]
      · simp only [hko, if_false]
        exact ih

theorem CollectionCatalogMap.erase_of_find_none {R : Type} (m : CollectionCatalogMap R)
    (ns : String) (h : CollectionCatalogMap.find m ns = none) :
    CollectionCatalogMap.erase m ns = m := by
  induction m with
  | nil => rfl
  | cons b rest ih =>
    obtain ⟨k, v⟩ := b
    by_cases hk : k = ns
    · simp [CollectionCatalogMap.find, hk] at h
    · simp only [CollectionCatalogMap.find, hk, if_false] at h
      simp only [CollectionCatalogMap.erase] at ih
      simp only [CollectionCatalogMap.erase, List.filter_cons, hk, decide_False, Bool.not_false,
        if_true]
      rw [ih h]

/-! ## A failing `dropCollection` -/

/-- Claim C11, the statement the code satisfies: with the database lock held, when
`CatalogStore.dropCollection` returns a status that is not OK, `dropCollection` returns
that status, and `_collections` is the map before the call with the binding of the
namespace erased: the namespace is no longer a key, every other key is bound as
before, and the map is the one before the call when the namespace was not cached. -/
theorem dropCollection_catalog_failure {W R : Type} (K : KVStorageEngine W R)
    (opCtx : OperationContext) (st : KVDatabaseCatalogEntryBase W R) (ns : String)
    (hlock : opCtx.isDbLockedForMode st.name LockMode.MODE_X = true)
    (_hfail : (K.dropCollection st._engine ns).1.isOK = false) :
    (dropCollection K opCtx st ns).1 = Outcome.returned (K.dropCollection st._engine ns).1 ∧
      (dropCollection K opCtx st ns).2._collections =
        CollectionCatalogMap.erase st._collections ns ∧
      CollectionCatalogMap.find (dropCollection K opCtx st ns).2._collections ns = none ∧
      (∀ other, other ≠ ns →
        CollectionCatalogMap.find (dropCollection K opCtx st ns).2._collections other =
          CollectionCatalogMap.find st._collections other) ∧
      (CollectionCatalogMap.find st._collections ns = none →
        (dropCollection K opCtx st ns).2._collections = st._collections) := by
  rw [dropCollection_of_locked K opCtx st ns hlock]
  refine ⟨rfl, rfl, CollectionCatalogMap.find_erase_self st._collections ns, ?_, ?_⟩
  · intro other hne
    exact CollectionCatalogMap.find_erase_of_ne st._collections ns other hne
  · intro hmiss
    exact CollectionCatalogMap.erase_of_find_none st._collections ns hmiss

/-- Witness of `dropCollection_catalog_failure`: `db.foo` is cached and the catalog has no
document for it, so the modelled catalog answers `NotFound`. -/
theorem dropCollection_catalog_failure_witness :
    (specEngine.dropCollection fooOrphaned._engine "db.foo").1 =
        ⟨ErrorCodes.NotFound, "no such collection"⟩ ∧
      ((dropCollection specEngine lockedOpCtx fooOrphaned "db.foo").1 =
          Outcome.returned (specEngine.dropCollection fooOrphaned._engine "db.foo").1 ∧
        (dropCollection specEngine lockedOpCtx fooOrphaned "db.foo").2._collections =
          CollectionCatalogMap.erase fooOrphaned._collections "db.foo" ∧
        CollectionCatalogMap.find
          (dropCollection specEngine lockedOpCtx fooOrphaned "db.foo").2._collections
          "db.foo" = none ∧
        (∀ other, other ≠ "db.foo" →
          CollectionCatalogMap.find
              (dropCollection specEngine lockedOpCtx fooOrphaned "db.foo").2._collections
              other =
            CollectionCatalogMap.find fooOrphaned._collections other) ∧
        (CollectionCatalogMap.find fooOrphaned._collections "db.foo" = none →
          (dropCollection specEngine lockedOpCtx fooOrphaned "db.foo").2._collections =
            fooOrphaned._collections)) :=
  ⟨rfl, dropCollection_catalog_failure specEngine lockedOpCtx fooOrphaned "db.foo" rfl rfl⟩

/-- Claim C11 as the spec states it fails on `db.foo` cached over a catalog without its
document: the catalog call returns `NotFound`, `dropCollection` returns it, and the
entry of `db.foo` is gone from `_collections`, which is not the map before the call. -/
theorem dropCollection_catalog_failure_counterexample :
    ¬ ((specEngine.dropCollection fooOrphaned._engine "db.foo").1.isOK = false →
      (dropCollection specEngine lockedOpCtx fooOrphaned "db.foo").1 =
          Outcome.returned (specEngine.dropCollection fooOrphaned._engine "db.foo").1 ∧
        (dropCollection specEngine lockedOpCtx fooOrphaned "db.foo").2._collections =
          fooOrphaned._collections) := by
  intro hclaim
  obtain ⟨_, hmap⟩ := hclaim rfl
  have hafter : (dropCollection specEngine lockedOpCtx fooOrphaned "db.foo").2._collections =
      [] := rfl
  have hbefore : fooOrphaned._collections =
      [("db.foo", ⟨"db.foo", "db.foo", ⟨"db.foo", ⟨1⟩, 0⟩⟩)] := rfl
  rw [hafter, hbefore] at hmap
  cases hmap

/-! ## The lazy load -/

/-- Claim C12, the statement the code satisfies: for a namespace that is not cached and whose
catalog document is a real collection document (not empty, not a feature document)
with the string ident `ident`, `getCollectionCatalogEntry` calls `findEntry` and then
asks the engine to open the record store of `ident` with the options and the prefix of
the document's metadata; it binds the namespace in `_collections` to an entry that
owns exactly that record store, returns that entry, and leaves every other key bound
as before.  The `ns` and the `ident` of the entry are both the namespace: the ident
read from the document is used to open the record store only. -/
theorem getCollectionCatalogEntry_lazy_load {W R : Type} (K : KVStorageEngine W R)
    (opCtx : OperationContext) (st : KVDatabaseCatalogEntryBase W R) (ns ident : String)
    (hmiss : CollectionCatalogMap.find st._collections ns = none)
    (hdoc : BSONObj.isEmpty (K.findEntry st._engine ns) = false)
    (hfeature : K.isFeatureDocument (K.findEntry st._engine ns) = false)
    (hident : (BSONObj.getField (K.findEntry st._engine ns) "ident").checkAndGetStringData =
      some ident) :
    ∃ h,
      (getCollectionCatalogEntry K opCtx st ns).1 = Outcome.returned (some h) ∧
      h.ns = ns ∧
      h.ident = ns ∧
      h.rs = (K.getGroupedRecordStore st._engine ns ident
        (metaDataOfDocument K (K.findEntry st._engine ns)).options
        (metaDataOfDocument K (K.findEntry st._engine ns)).kvPrefix).1 ∧
      callsSince st (getCollectionCatalogEntry K opCtx st ns).2 =
        [Call.findEntry ns,
          Call.getGroupedRecordStore ns ident
            (metaDataOfDocument K (K.findEntry st._engine ns)).options
            (metaDataOfDocument K (K.findEntry st._engine ns)).kvPrefix] ∧
      (getCollectionCatalogEntry K opCtx st ns).2._collections = st._collections ++ [(ns, h)] ∧
      CollectionCatalogMap.find (getCollectionCatalogEntry K opCtx st ns).2._collections ns =
        some h ∧
      (∀ other, other ≠ ns →
        CollectionCatalogMap.find (getCollectionCatalogEntry K opCtx st ns).2._collections
            other =
          CollectionCatalogMap.find st._collections other) := by
  rw [getCollectionCatalogEntry_of_document K opCtx st ns ident hmiss hdoc hfeature hident]
  refine ⟨_, rfl, rfl, rfl, rfl, callsSince_append st _ _ rfl, rfl,
    CollectionCatalogMap.find_append_of_none _ _ _ hmiss, ?_⟩
  intro other hne
  exact CollectionCatalogMap.find_append_of_ne st._collections ns other _ hne

/-- Witness of `getCollectionCatalogEntry_lazy_load`: `db.foo` persisted with the ident
`collection-0` and not cached. -/
theorem getCollectionCatalogEntry_lazy_load_witness :
    ∃ h,
      (getCollectionCatalogEntry specEngine lockedOpCtx fooPersisted "db.foo").1 =
        Outcome.returned (some h) ∧
      h.ns = "db.foo" ∧
      h.ident = "db.foo" ∧
      h.rs = (specEngine.getGroupedRecordStore fooPersisted._engine "db.foo" "collection-0"
        (metaDataOfDocument specEngine
          (specEngine.findEntry fooPersisted._engine "db.foo")).options
        (metaDataOfDocument specEngine
          (specEngine.findEntry fooPersisted._engine "db.foo")).kvPrefix).1 ∧
      callsSince fooPersisted
          (getCollectionCatalogEntry specEngine lockedOpCtx fooPersisted "db.foo").2 =
        [Call.findEntry "db.foo",
          Call.getGroupedRecordStore "db.foo" "collection-0"
            (metaDataOfDocument specEngine
              (specEngine.findEntry fooPersisted._engine "db.foo")).options
            (metaDataOfDocument specEngine
              (specEngine.findEntry fooPersisted._engine "db.foo")).kvPrefix] ∧
      (getCollectionCatalogEntry specEngine lockedOpCtx fooPersisted "db.foo").2._collections =
        fooPersisted._collections ++ [("db.foo", h)] ∧
      CollectionCatalogMap.find
        (getCollectionCatalogEntry specEngine lockedOpCtx fooPersisted "db.foo").2._collections
        "db.foo" = some h ∧
      (∀ other, other ≠ "db.foo" →
        CollectionCatalogMap.find
            (getCollectionCatalogEntry specEngine lockedOpCtx fooPersisted
              "db.foo").2._collections other =
          CollectionCatalogMap.find fooPersisted._collections other) :=
  getCollectionCatalogEntry_lazy_load specEngine lockedOpCtx fooPersisted "db.foo"
    "collection-0" rfl rfl rfl rfl

/-- Claim C12 as the spec states it fails on `db.foo` persisted with the ident `collection-0`
and not cached: the document is a real collection document, the record store is opened
for `collection-0`, and the entry that is cached and returned has the ident `db.foo`,
not `collection-0`. -/
theorem getCollectionCatalogEntry_lazy_load_counterexample :
    ¬ (CollectionCatalogMap.find fooPersisted._collections "db.foo" = none →
      (BSONObj.getField (specEngine.findEntry fooPersisted._engine "db.foo")
        "ident").checkAndGetStringData = some "collection-0" →
      ∃ h,
        (getCollectionCatalogEntry specEngine lockedOpCtx fooPersisted "db.foo").1 =
          Outcome.returned (some h) ∧
        CollectionCatalogMap.find
          (getCollectionCatalogEntry specEngine lockedOpCtx fooPersisted
            "db.foo").2._collections "db.foo" = some h ∧
        h.ident = "collection-0" ∧
        h.rs = (specEngine.getGroupedRecordStore fooPersisted._engine "db.foo" "collection-0"
          (metaDataOfDocument specEngine
            (specEngine.findEntry fooPersisted._engine "db.foo")).options
          (metaDataOfDocument specEngine
            (specEngine.findEntry fooPersisted._engine "db.foo")).kvPrefix).1) := by
  intro hclaim
  obtain ⟨h, hget, _, hident, _⟩ := hclaim rfl rfl
  have hentry : (getCollectionCatalogEntry specEngine lockedOpCtx fooPersisted "db.foo").1 =
      Outcome.returned (some ⟨"db.foo", "db.foo", ⟨"collection-0", ⟨0⟩, 0⟩⟩) := rfl
  rw [hentry] at hget
  cases hget
  simp at hident

/-! ## At most one entry per ident -/

theorem CollectionCatalogMap.not_mem_keys_of_find_none {R : Type}
    (m : CollectionCatalogMap R) (ns : String)
    (h : CollectionCatalogMap.find m ns = none) : ns ∉ CollectionCatalogMap.keys m := by
  induction m with
  | nil => simp [CollectionCatalogMap.keys]
  | cons b rest ih =>
    obtain ⟨k, v⟩ := b
    by_cases hk : k = ns
    · simp [CollectionCatalogMap.find, hk] at h
    · simp only [CollectionCatalogMap.find, hk, if_false] at h
      have hrest := ih h
      simp only [CollectionCatalogMap.keys, List.map_cons, List.mem_cons, not_or] at hrest ⊢
      exact ⟨fun heq => hk heq.symm, hrest⟩

theorem CollectionCatalogMap.identIsKey_nil {R : Type} :
    CollectionCatalogMap.identIsKey ([] : CollectionCatalogMap R) := by
  constructor
  · simp [CollectionCatalogMap.keys]
  · intro b hb
    cases hb

theorem CollectionCatalogMap.identIsKey_append {R : Type} (m : CollectionCatalogMap R)
    (ns : String) (e : KVCollectionCatalogEntry R)
    (hm : CollectionCatalogMap.identIsKey m)
    (hmiss : CollectionCatalogMap.find m ns = none) (he : e.ident = ns) :
    CollectionCatalogMap.identIsKey (m ++ [(ns, e)]) := by
  obtain ⟨hkeys, hidents⟩ := hm
  have hnot := CollectionCatalogMap.not_mem_keys_of_find_none m ns hmiss
  constructor
  · simp only [CollectionCatalogMap.keys, List.map_append, List.map_cons, List.map_nil] at *
    rw [List.nodup_append]
    refine ⟨hkeys, List.nodup_singleton ns, ?_⟩
    intro k hk hk1
    rw [List.mem_singleton] at hk1
    exact hnot (hk1 ▸ hk)
  · intro b hb
    rw [List.mem_append, List.mem_singleton] at hb
    rcases hb with hb | hb
    · exact hidents b hb
    · rw [hb]
      exact he

theorem CollectionCatalogMap.identIsKey_erase {R : Type} (m : CollectionCatalogMap R)
    (ns : String) (hm : CollectionCatalogMap.identIsKey m) :
    CollectionCatalogMap.identIsKey (CollectionCatalogMap.erase m ns) := by
  obtain ⟨hkeys, hidents⟩ := hm
  constructor
  · exact List.Nodup.sublist (List.Sublist.map _ (List.filter_sublist m)) hkeys
  · intro b hb
    exact hidents b (List.mem_of_mem_filter hb)

theorem CollectionCatalogMap.idents_nodup_of_identIsKey {R : Type}
    (m : CollectionCatalogMap R) (hm : CollectionCatalogMap.identIsKey m) :
    List.Nodup (CollectionCatalogMap.idents m) := by
  obtain ⟨hkeys, hidents⟩ := hm
  have hsame : CollectionCatalogMap.idents m = CollectionCatalogMap.keys m := by
    simp only [CollectionCatalogMap.idents, CollectionCatalogMap.keys]
    exact List.map_congr_left hidents
  rw [hsame]
  exact hkeys

theorem createCollection_identIsKey {W R : Type} (K : KVStorageEngine W R)
    (opCtx : OperationContext) (st : KVDatabaseCatalogEntryBase W R) (nss : NamespaceString)
    (options : CollectionOptions) (idIndexSpec : BSONObj)
    (hm : CollectionCatalogMap.identIsKey st._collections) :
    CollectionCatalogMap.identIsKey
      (createCollection K opCtx st nss options idIndexSpec).2._collections := by
  cases hempty : nss.isEmpty with
  | true =>
    rw [createCollection_of_isEmpty K opCtx st nss options idIndexSpec hempty]
    exact hm
  | false =>
    cases hnew : (K.newCollection st._engine nss options idIndexSpec).1.isOK with
    | false =>
      rw [createCollection_of_not_isOK K opCtx st nss options idIndexSpec hempty hnew]
      exact hm
    | true =>
      cases hfind : CollectionCatalogMap.find st._collections nss.ns with
      | some e =>
        rw [createCollection_of_cached K opCtx st nss options idIndexSpec hempty hnew e hfind]
        exact hm
      | none =>
        rw [createCollection_of_not_cached K opCtx st nss options idIndexSpec hempty hnew
          hfind]
        exact CollectionCatalogMap.identIsKey_append _ _ _ hm hfind rfl

theorem getCollectionCatalogEntry_identIsKey {W R : Type} (K : KVStorageEngine W R)
    (opCtx : OperationContext) (st : KVDatabaseCatalogEntryBase W R) (ns : String)
    (hm : CollectionCatalogMap.identIsKey st._collections) :
    CollectionCatalogMap.identIsKey (getCollectionCatalogEntry K opCtx st ns).2._collections := by
  cases hfind : CollectionCatalogMap.find st._collections ns with
  | some e =>
    rw [getCollectionCatalogEntry_of_cached K opCtx st ns e hfind]
    exact hm
  | none =>
    cases hdoc : BSONObj.isEmpty (K.findEntry st._engine ns) with
    | true =>
      rw [getCollectionCatalogEntry_of_no_collection K opCtx st ns hfind (Or.inl hdoc)]
      exact hm
    | false =>
      cases hfeature : K.isFeatureDocument (K.findEntry st._engine ns) with
      | true =>
        rw [getCollectionCatalogEntry_of_no_collection K opCtx st ns hfind (Or.inr hfeature)]
        exact hm
      | false =>
        cases hident :
            (BSONObj.getField (K.findEntry st._engine ns) "ident").checkAndGetStringData with
        | none =>
          rw [getCollectionCatalogEntry_of_bad_ident K opCtx st ns hfind hdoc hfeature hident]
          exact hm
        | some ident =>
          rw [getCollectionCatalogEntry_of_document K opCtx st ns ident hfind hdoc hfeature
            hident]
          exact CollectionCatalogMap.identIsKey_append _ _ _ hm hfind rfl

theorem initCollection_identIsKey {W R : Type} (K : KVStorageEngine W R)
    (opCtx : OperationContext) (st : KVDatabaseCatalogEntryBase W R) (ns : String)
    (forRepair : Bool) (hm : CollectionCatalogMap.identIsKey st._collections) :
    CollectionCatalogMap.identIsKey (initCollection K opCtx st ns forRepair).2._collections := by
  cases forRepair with
  | true => exact hm
  | false =>
    cases hfind : CollectionCatalogMap.find st._collections ns with
    | some e =>
      simp only [initCollection, Bool.false_eq_true, if_false,
        KVDatabaseCatalogEntryBase.record, hfind]
      exact hm
    | none =>
      simp only [initCollection, Bool.false_eq_true, if_false,
        KVDatabaseCatalogEntryBase.record, hfind, CollectionCatalogMap.try_emplace]
      exact CollectionCatalogMap.identIsKey_append _ _ _ hm hfind rfl

theorem dropCollection_identIsKey {W R : Type} (K : KVStorageEngine W R)
    (opCtx : OperationContext) (st : KVDatabaseCatalogEntryBase W R) (ns : String)
    (hm : CollectionCatalogMap.identIsKey st._collections) :
    CollectionCatalogMap.identIsKey (dropCollection K opCtx st ns).2._collections := by
  cases hlock : opCtx.isDbLockedForMode st.name LockMode.MODE_X with
  | false =>
    rw [dropCollection_of_not_locked K opCtx st ns hlock]
    exact hm
  | true =>
    rw [dropCollection_of_locked K opCtx st ns hlock]
    exact CollectionCatalogMap.identIsKey_erase _ ns hm

theorem runOperations_identIsKey {W R : Type} (K : KVStorageEngine W R)
    (ops : List Operation) (st : KVDatabaseCatalogEntryBase W R)
    (hm : CollectionCatalogMap.identIsKey st._collections) :
    CollectionCatalogMap.identIsKey (runOperations K st ops)._collections := by
  induction ops generalizing st with
  | nil => exact hm
  | cons op rest ih =>
    simp only [runOperations, List.foldl_cons]
    apply ih
    cases op with
    | createCollection opCtx nss options idIndexSpec =>
      exact createCollection_identIsKey K opCtx st nss options idIndexSpec hm
    | getCollectionCatalogEntry opCtx ns =>
      exact getCollectionCatalogEntry_identIsKey K opCtx st ns hm
    | initCollection opCtx ns forRepair =>
      exact initCollection_identIsKey K opCtx st ns forRepair hm
    | dropCollection opCtx ns =>
      exact dropCollection_identIsKey K opCtx st ns hm

/-- Claim C13: starting from a state whose `_collections` is empty, after any finite sequence
of `createCollection`, `getCollectionCatalogEntry` (lazy loads included),
`initCollection` and `dropCollection` calls, whatever each call returns, the idents of
the entries of `_collections` are pairwise different: no two entries of the map hold
the same ident. -/
theorem runOperations_idents_nodup {W R : Type} (K : KVStorageEngine W R)
    (st : KVDatabaseCatalogEntryBase W R) (ops : List Operation)
    (hempty : st._collections = []) :
    List.Nodup (CollectionCatalogMap.idents (runOperations K st ops)._collections) := by
  apply CollectionCatalogMap.idents_nodup_of_identIsKey
  apply runOperations_identIsKey
  rw [hempty]
  exact CollectionCatalogMap.identIsKey_nil

/-- Witness of `runOperations_idents_nodup`: the calls of `sampleOperations` on the empty
registry leave `db.foo` and `db.baz` cached, each under its own ident. -/
theorem runOperations_idents_nodup_witness :
    CollectionCatalogMap.idents
        (runOperations specEngine emptyRegistry sampleOperations)._collections =
        ["db.foo", "db.baz"] ∧
      List.Nodup
        (CollectionCatalogMap.idents
          (runOperations specEngine emptyRegistry sampleOperations)._collections) :=
  ⟨rfl, runOperations_idents_nodup specEngine emptyRegistry sampleOperations rfl⟩

end mongo
